import Mathlib

/-!
# Sand Saga grid engine — shallow embedding and verification

This file embeds the simulation core of `src/game.js` (material registry,
grid store, chunked dirty tracker, tick engine, brush painting, world
save/load) as executable Lean definitions, and proves or refutes the
specification claims about it.

Conventions of the embedding:
* JS `Int32Array` cells are modelled as `ℤ` (all indices occurring here are
  tiny, far below 2^31, so no wrap-around arithmetic is ever exercised).
* JS `Float32Array` temperatures are idealised as `ℚ`; the float literal
  `0.1` is read as `1/10`.  Every numeric discrepancy exhibited below is
  structural (factors of 2 and the like), far above float rounding.
* The seeded LCG `rand(seed)` is threaded explicitly as a `ℕ` state.
* Calls to the unseeded `Math.random()` are modelled as reads from an
  explicit external stream (`mr : ℕ → ℚ` with a counter in the state); for
  the brush the comparison `Math.random() < prob` is abstracted as a
  boolean oracle, and the relevant theorem quantifies over all oracles.
-/

set_option maxRecDepth 100000

namespace SandSaga

/-- A registered material, from `materials.json` / `defaultMaterials()`:
only the fields the simulation core reads are kept. -/
structure Material where
  id : String
  solid : Bool := false
  flow : Bool := false
  isGas : Bool := false
  flammable : Bool := false
  isTool : Bool := false
  /-- the `temp` property; `none` when absent (JS `undefined`). -/
  temp : Option ℚ := none
  deriving DecidableEq

/-- The material registry: `Object.keys(App.materials)` in insertion order,
so the numeric index of a material is its position in this list. -/
abbrev Registry := List Material

/-- `getMatIndex(id)`: position of the material in the key order, or
`none` (JS `undefined`) when the id is not registered. -/
def getMatIndex (reg : Registry) (id : String) : Option ℕ :=
  reg.findIdx? (fun m => m.id = id)

/-- `getMatByIndex(idx)`: `App.materials[keys[idx]]`; a negative or
out-of-range index yields `undefined`. -/
def getMatByIndex (reg : Registry) (i : ℤ) : Option Material :=
  if 0 ≤ i then reg.get? i.toNat else none

/-- JS truthiness of a `getMatIndex` result: `undefined` and `0` are falsy. -/
def truthyIdx : Option ℕ → Bool
  | some n => n ≠ 0
  | none => false

/-- Storing an optional index into an `Int32Array` slot: `undefined`
coerces to `0`. -/
def toInt32 : Option ℕ → ℤ
  | some n => n
  | none => 0

/-- `a || b` on two `getMatIndex` results, as stored into an `Int32Array`
(used by `setMatAt` and `drawBrushAt`): a present-but-zero index is falsy. -/
def jsOrIdx (a b : Option ℕ) : ℤ :=
  if truthyIdx a then toInt32 a else toInt32 b

/-- The in-source fallback registry `defaultMaterials()` followed by the
mandatory tools appended by `prepareMaterials` (`ERASER`, `WALL`). -/
def defaultRegistry : Registry :=
  [ { id := "EMPTY" },
    { id := "SAND", flow := true },
    { id := "WATER", flow := true },
    { id := "FIRE", isGas := true, temp := some 800 },
    { id := "STONE", solid := true },
    { id := "ERASER", isTool := true },
    { id := "WALL", solid := true } ]

/-- Modelled from the spec: the shipped `materials.json` is not under
`src/`, but the tick engine references `OIL`, `ACID`, `METAL`, `SEED`,
`WOOD`, `STEAM` and `LAVA`; per §3/§4.1 they are registered after the base
materials (empty at index 0) and before the mandatory tools appended by
`prepareMaterials`.  Capabilities follow the spec's material descriptions
(combustible liquid `OIL`, corrodible-metal `METAL`, gas `STEAM`, molten
`LAVA`, …). -/
def specRegistry : Registry :=
  [ { id := "EMPTY" },
    { id := "SAND", flow := true },
    { id := "WATER", flow := true },
    { id := "FIRE", isGas := true, temp := some 800 },
    { id := "STONE", solid := true },
    { id := "OIL", flow := true, flammable := true },
    { id := "ACID", flow := true },
    { id := "METAL", solid := true },
    { id := "SEED" },
    { id := "WOOD", flammable := true },
    { id := "STEAM", isGas := true },
    { id := "LAVA", flow := true, temp := some 1200 },
    { id := "ERASER", isTool := true },
    { id := "WALL", solid := true } ]

/-! ## Grid store and dirty tracker -/

/-- `App.chunkSize`. -/
def chunkSize : ℕ := 16

/-- `idx(x,y) = y*gridW + x` (row-major flat index). -/
def gidx (W x y : ℕ) : ℕ := y * W + x

/-- The world state: the three parallel arrays plus the chunk tracker. -/
structure World where
  gridW : ℕ
  gridH : ℕ
  mat : List ℤ
  temp : List ℚ
  meta : List ℕ
  chunksX : ℕ
  chunksY : ℕ
  dirty : List Bool
  deriving DecidableEq

/-- The fill value of `allocateWorld`: `getMatIndex('EMPTY') || -1`
(JS `||`, so an empty-material index of `0` is falsy). -/
def allocFill (reg : Registry) : ℤ :=
  if truthyIdx (getMatIndex reg "EMPTY") then toInt32 (getMatIndex reg "EMPTY") else -1

/-- `allocateWorld(w,h)`: fresh typed arrays, `temperature` filled with the
ambient `20`, chunk counts `max 1 ⌈d/chunkSize⌉`, every chunk marked dirty
(`markAllDirty`). -/
def allocateWorld (reg : Registry) (w h : ℕ) : World :=
  let cX := max 1 ((w + (chunkSize - 1)) / chunkSize)
  let cY := max 1 ((h + (chunkSize - 1)) / chunkSize)
  { gridW := w, gridH := h,
    mat := List.replicate (w * h) (allocFill reg),
    temp := List.replicate (w * h) 20,
    meta := List.replicate (w * h) 0,
    chunksX := cX, chunksY := cY,
    dirty := List.replicate (cX * cY) true }

/-- `markAllDirty()`: every chunk flag set. -/
def markAllDirty (w : World) : World :=
  { w with dirty := w.dirty.map (fun _ => true) }

/-- `markChunkDirtyForCell(x,y)`: owning chunk via integer division;
out-of-range chunk coordinates are ignored. -/
def markChunkDirtyForCell (w : World) (x y : ℕ) : World :=
  let cx := x / chunkSize
  let cy := y / chunkSize
  if cx < w.chunksX ∧ cy < w.chunksY then
    { w with dirty := w.dirty.set (cy * w.chunksX + cx) true }
  else w

/-- `setMatAt(x,y,id)`: bounds-checked write of
`getMatIndex(id) || getMatIndex('EMPTY')`, then dirty-marking. -/
def setMatAt (reg : Registry) (w : World) (x y : ℕ) (id : String) : World :=
  if x < w.gridW ∧ y < w.gridH then
    let i := gidx w.gridW x y
    markChunkDirtyForCell
      { w with mat := w.mat.set i (jsOrIdx (getMatIndex reg id) (getMatIndex reg "EMPTY")) }
      x y
  else w

/-! ## Random sources -/

/-- One step of the LCG in `rand(seed)`.  (Marked irreducible so that
unification never tries to symbolically reduce the literal arithmetic;
concrete evaluations go through `with_unfolding_all`.) -/
@[irreducible] def rngStep (s : ℕ) : ℕ := (s * 1664525 + 1013904223) % 4294967296

/-- The value returned by one call of the closure produced by `rand`:
the *updated* state divided by `2^32`. -/
def rngVal (s : ℕ) : ℚ := (rngStep s : ℚ) / 4294967296

/-- Mutable simulation context threaded through a tick: the world, the
state of the seeded LCG (`App.rng`), and how many `Math.random()` samples
have been consumed so far. -/
structure SimState where
  w : World
  rng : ℕ
  mrc : ℕ
  deriving DecidableEq

/-! ## Tick engine, pass 1 (movement + temperature) -/

/-- A successful move: destination cell overwritten with the mover,
source cell overwritten with `getMatIndex('EMPTY')` (an `Int32Array`
store, so a missing empty material coerces to `0`), both chunks marked. -/
def moveCell (reg : Registry) (w : World) (x y x' y' : ℕ) (mIdx : ℤ) : World :=
  let m1 := (w.mat.set (gidx w.gridW x' y') mIdx).set (gidx w.gridW x y) (toInt32 (getMatIndex reg "EMPTY"))
  let w1 := { w with mat := m1 }
  markChunkDirtyForCell (markChunkDirtyForCell w1 x y) x' y'

/-- The recurring `xMat && !xMat.solid` test: whether the cell at flat
index `i` holds a *defined* non-solid material (an out-of-registry index,
in particular the `-1` allocation fill, is `undefined` and fails it). -/
def nonSolidAt (reg : Registry) (w : World) (i : ℕ) : Bool :=
  match getMatByIndex reg (w.mat.getD i 0) with
  | some m => !m.solid
  | none => false

/-- The sand block of `simTick` (fall, else random diagonal slide); the
`Bool` records whether the block `continue`d.  A failed slide still
consumes one sample of the seeded rng. -/
def sandStage (reg : Registry) (st : SimState) (x y : ℕ) (mIdx : ℤ) : SimState × Bool :=
  let W := st.w.gridW
  let H := st.w.gridH
  if y + 1 < H then
    let fall := nonSolidAt reg st.w (gidx W x (y + 1))
    if fall then
      ({ st with w := moveCell reg st.w x y x (y + 1) mIdx }, true)
    else
      -- attempt slide
      let v := rngVal st.rng
      let s' := rngStep st.rng
      let dir : ℤ := if v < 1/2 then -1 else 1
      if 0 ≤ (x : ℤ) + dir ∧ (x : ℤ) + dir < (W : ℤ) ∧ y + 1 < H then
        let xd := ((x : ℤ) + dir).toNat
        let ok := nonSolidAt reg st.w (gidx W xd (y + 1))
        if ok then
          ({ w := moveCell reg st.w x y xd (y + 1) mIdx, rng := s', mrc := st.mrc }, true)
        else
          ({ st with rng := s' }, false)
      else
        ({ st with rng := s' }, false)
  else (st, false)

/-- The liquid block of `simTick`: straight down first, otherwise one
random sideways attempt (which always consumes one rng sample). -/
def flowStage (reg : Registry) (st : SimState) (x y : ℕ) (mIdx : ℤ) : SimState × Bool :=
  let W := st.w.gridW
  let H := st.w.gridH
  let down :=
    if y + 1 < H then nonSolidAt reg st.w (gidx W x (y + 1))
    else false
  if down then
    ({ st with w := moveCell reg st.w x y x (y + 1) mIdx }, true)
  else
    let v := rngVal st.rng
    let s' := rngStep st.rng
    let dx : ℤ := if v < 1/2 then -1 else 1
    if 0 ≤ (x : ℤ) + dx ∧ (x : ℤ) + dx < (W : ℤ) then
      let xd := ((x : ℤ) + dx).toNat
      let ok := nonSolidAt reg st.w (gidx W xd y)
      if ok then
        ({ w := moveCell reg st.w x y xd y mIdx, rng := s', mrc := st.mrc }, true)
      else
        ({ st with rng := s' }, false)
    else
      ({ st with rng := s' }, false)

/-- The gas block of `simTick`: rise straight up into a non-solid cell. -/
def gasStage (reg : Registry) (st : SimState) (x y : ℕ) (mIdx : ℤ) : SimState × Bool :=
  let W := st.w.gridW
  if 0 < y then
    let ok := nonSolidAt reg st.w (gidx W x (y - 1))
    if ok then
      ({ st with w := moveCell reg st.w x y x (y - 1) mIdx }, true)
    else (st, false)
  else (st, false)

/-- The temperature-diffusion expression of `simTick` for cell `(x,y)`:
running sum/count start from the cell's own temperature (`count=1,
sum=t`), each existing orthogonal neighbour is accumulated, and the cell
moves a `0.1` fraction toward the average. -/
def tempDiffuse (temp : List ℚ) (W H x y : ℕ) : ℚ :=
  let t := temp.getD (gidx W x y) 0
  let sc1 : ℚ × ℕ := (t, 1)
  let sc2 := if 0 < x then (sc1.1 + temp.getD (gidx W (x - 1) y) 0, sc1.2 + 1) else sc1
  let sc3 := if x + 1 < W then (sc2.1 + temp.getD (gidx W (x + 1) y) 0, sc2.2 + 1) else sc2
  let sc4 := if 0 < y then (sc3.1 + temp.getD (gidx W x (y - 1)) 0, sc3.2 + 1) else sc3
  let sc5 := if y + 1 < H then (sc4.1 + temp.getD (gidx W x (y + 1)) 0, sc4.2 + 1) else sc4
  let avg := sc5.1 / (sc5.2 : ℚ)
  t + (avg - t) * (1/10)

/-- The temperature stage of `simTick`: diffusion followed by the three
threshold transitions, each testing the *original* material `m` of the
cell but reading the freshly written temperature. -/
def tempStage (reg : Registry) (st : SimState) (m : Material) (x y : ℕ) (mIdx : ℤ) : SimState :=
  let W := st.w.gridW
  let H := st.w.gridH
  let i := gidx W x y
  let w1 := { st.w with temp := st.w.temp.set i (tempDiffuse st.w.temp W H x y) }
  -- water boils into steam: `getMatIndex('STEAM') || mIdx`, then +10 degrees
  let w2 :=
    if m.id = "WATER" ∧ (100 : ℚ) < w1.temp.getD i 0 then
      let v : ℤ := if truthyIdx (getMatIndex reg "STEAM") then toInt32 (getMatIndex reg "STEAM") else mIdx
      let w2a := { w1 with mat := w1.mat.set i v, temp := w1.temp.set i (w1.temp.getD i 0 + 10) }
      markChunkDirtyForCell w2a x y
    else w1
  -- lava cools into stone (only when STONE is registered)
  let w3 :=
    if m.id = "LAVA" ∧ w2.temp.getD i 0 < (500 : ℚ) ∧ (getMatIndex reg "STONE").isSome then
      let w3a := { w2 with mat := w2.mat.set i (toInt32 (getMatIndex reg "STONE")), temp := w2.temp.set i 100 }
      markChunkDirtyForCell w3a x y
    else w2
  -- flammables ignite into fire
  let w4 :=
    if m.flammable ∧ (300 : ℚ) < w3.temp.getD i 0 then
      let w4a := { w3 with mat := w3.mat.set i (toInt32 (getMatIndex reg "FIRE")), temp := w3.temp.set i 800 }
      markChunkDirtyForCell w4a x y
    else w3
  { st with w := w4 }

/-- Sequencing of the movement blocks: when a block fired its `continue`
(second component `true`), the following blocks are skipped; otherwise
the next block runs on the state left behind (a failed slide attempt has
already consumed a random sample). -/
def contOr (a : SimState × Bool) (f : SimState → SimState × Bool) : SimState × Bool :=
  if a.2 then a else f a.1

/-- The three movement blocks of `simTick` for one cell, in source order
(sand, then liquid flow, then gas), each guarded by its material test,
chained by the `continue` semantics. -/
def moveStages (reg : Registry) (st : SimState) (x y : ℕ) (mIdx : ℤ) (m : Material) :
    SimState × Bool :=
  contOr (if m.id.startsWith "SAND" ∨ m.id = "SAND" then sandStage reg st x y mIdx else (st, false))
    (fun s1 =>
      contOr (if m.flow ∨ m.id = "WATER" ∨ m.id = "OIL" then flowStage reg s1 x y mIdx else (s1, false))
        (fun s2 => if m.isGas then gasStage reg s2 x y mIdx else (s2, false)))

/-- Processing of one cell by the movement pass of `simTick`; the `Bool`
is `true` exactly when one of the movement blocks fired its `continue`. -/
def cellStepCore (reg : Registry) (tt : Bool) (st : SimState) (x y : ℕ) : SimState × Bool :=
  let i := gidx st.w.gridW x y
  let mIdx := st.w.mat.getD i 0
  if mIdx < 0 then (st, false)
  else
    match getMatByIndex reg mIdx with
    | none => (st, false)
    | some m =>
      if m.id = "WALL" ∨ m.id = "ERASER" then (st, false)
      else
        let r := moveStages reg st x y mIdx m
        if r.2 then r
        else if tt then (tempStage reg r.1 m x y mIdx, false) else (r.1, false)

/-- Pass 1 of `simTick`: bottom row to top row, left to right. -/
def pass1 (reg : Registry) (tt : Bool) (st : SimState) : SimState :=
  let W := st.w.gridW
  let H := st.w.gridH
  (List.range H).foldl
    (fun s k => (List.range W).foldl (fun s2 x => (cellStepCore reg tt s2 x (H - 1 - k)).1) s)
    st

/-! ## Tick engine, pass 2 (neighbour reactions) -/

/-- `neighborCoords(x,y)`: the up-to-4 existing orthogonal neighbours, in
source order (left, right, up, down). -/
def neighborCoords (W H x y : ℕ) : List (ℕ × ℕ) :=
  (if 0 < x then [(x - 1, y)] else []) ++
  (if x + 1 < W then [(x + 1, y)] else []) ++
  (if 0 < y then [(x, y - 1)] else []) ++
  (if y + 1 < H then [(x, y + 1)] else [])

/-- One `Math.random()` draw: value and updated counter. -/
def mrDraw (mr : ℕ → ℚ) (st : SimState) : ℚ × SimState :=
  (mr st.mrc, { st with mrc := st.mrc + 1 })

/-- Pass-2 processing of one cell: corrosion, ignition of oil, seed
growth.  The cell's own material is read once at entry (as in the
source), the neighbours are read live; every probabilistic check draws
from the unseeded `Math.random()` stream. -/
def cellReact (reg : Registry) (mr : ℕ → ℚ) (st : SimState) (x y : ℕ) : SimState :=
  let W := st.w.gridW
  let H := st.w.gridH
  let i := gidx W x y
  let mIdx := st.w.mat.getD i 0
  match getMatByIndex reg mIdx with
  | none => st
  | some m =>
    let stA :=
      if m.id = "ACID" then
        (neighborCoords W H x y).foldl
          (fun s p =>
            let ni := gidx W p.1 p.2
            match getMatByIndex reg (s.w.mat.getD ni 0) with
            | some nm =>
              if nm.id = "METAL" then
                let (v, s') := mrDraw mr s
                if v < 1/50 then
                  let wA := { s'.w with mat := s'.w.mat.set ni (toInt32 (getMatIndex reg "STONE")) }
                  { s' with w := markChunkDirtyForCell wA p.1 p.2 }
                else s'
              else s
            | none => s)
          st
      else st
    let stB :=
      if m.id = "OIL" then
        (neighborCoords W H x y).foldl
          (fun s p =>
            let ni := gidx W p.1 p.2
            match getMatByIndex reg (s.w.mat.getD ni 0) with
            | some nm =>
              if nm.id = "FIRE" then
                let (v, s') := mrDraw mr s
                if v < 1/5 then
                  let wB := { s'.w with mat := s'.w.mat.set i (toInt32 (getMatIndex reg "FIRE")) }
                  { s' with w := markChunkDirtyForCell wB x y }
                else s'
              else s
            | none => s)
          stA
      else stA
    if m.id = "SEED" then
      (neighborCoords W H x y).foldl
        (fun s p =>
          let ni := gidx W p.1 p.2
          match getMatByIndex reg (s.w.mat.getD ni 0) with
          | some nm =>
            if nm.id = "WATER" then
              let (v, s') := mrDraw mr s
              if v < 1/20 then
                let wC := { s'.w with mat := s'.w.mat.set i (toInt32 (getMatIndex reg "SEED")) }
                let s1 := { s' with w := wC }
                let (v2, s2) := mrDraw mr s1
                if v2 < 1/50 then
                  let wD := { s2.w with mat := s2.w.mat.set i (toInt32 (getMatIndex reg "WOOD")) }
                  { s2 with w := markChunkDirtyForCell wD x y }
                else s2
              else s'
            else s
          | none => s)
        stB
    else stB

/-- Pass 2 of `simTick`: top row to bottom row, left to right. -/
def pass2 (reg : Registry) (mr : ℕ → ℚ) (st : SimState) : SimState :=
  let W := st.w.gridW
  let H := st.w.gridH
  (List.range H).foldl
    (fun s y => (List.range W).foldl (fun s2 x => cellReact reg mr s2 x y) s)
    st

/-- One full `simTick()`. -/
def simTick (reg : Registry) (tt : Bool) (mr : ℕ → ℚ) (st : SimState) : SimState :=
  pass2 reg mr (pass1 reg tt st)

/-- `N` consecutive calls of `simTick()`. -/
def simTickN (reg : Registry) (tt : Bool) (mr : ℕ → ℚ) : ℕ → SimState → SimState
  | 0, st => st
  | n + 1, st => simTickN reg tt mr n (simTick reg tt mr st)

/-! ## Renderer's dirty-chunk collection -/

/-- The chunk visit order of `render()`: `cy` ascending, `cx` ascending. -/
def chunkOrder (cX cY : ℕ) : List (ℕ × ℕ) :=
  ((List.range cY).map (fun cy => (List.range cX).map (fun cx => (cx, cy)))).flatten

/-- One chunk of `render()`'s loop: a dirty chunk is reported (painted)
and its flag cleared; a clean chunk is skipped. -/
def visitChunk (cX : ℕ) (acc : List (ℕ × ℕ) × World) (p : ℕ × ℕ) : List (ℕ × ℕ) × World :=
  let c := p.2 * cX + p.1
  if acc.2.dirty.getD c false then
    (acc.1 ++ [p], { acc.2 with dirty := acc.2.dirty.set c false })
  else acc

/-- The dirty-chunk collection performed by `render()`: the list of chunk
coordinates repainted, and the world with exactly those flags cleared. -/
def takeDirtyChunks (w : World) : List (ℕ × ℕ) × World :=
  (chunkOrder w.chunksX w.chunksY).foldl (visitChunk w.chunksX) ([], w)

/-! ## Brush painting -/

/-- The brush offsets `-radius..radius`. -/
def offsets (r : ℕ) : List ℤ := (List.range (2 * r + 1)).map (fun k => (k : ℤ) - r)

/-- Accumulator of `drawBrushAt`: the world, how many `Math.random()`
samples were consumed, and the log of (x,y) cells actually written. -/
structure BrushAcc where
  w : World
  coins : ℕ
  log : List (ℤ × ℤ)

/-- The temperature written by the brush:
`App.materials[id] ? (App.materials[id].temp || 20) : 20`. -/
def brushCellTemp (reg : Registry) (id : String) : ℚ :=
  match reg.find? (fun m => m.id = id) with
  | some mm =>
    match mm.temp with
    | some t => if t = 0 then 20 else t
    | none => 20
  | none => 20

/-- One candidate cell of `drawBrushAt`: bounds check, radial check
(JS compares `Math.sqrt(dx*dx+dy*dy) > radius`, equivalent on integers to
the squared comparison used here), then one `Math.random()` draw whose
outcome `Math.random() < prob` is abstracted as the oracle `coin` (for a
hard brush `prob = 1` and the draw always succeeds; the theorems quantify
over every oracle). -/
def brushVisit (reg : Registry) (id : String) (coin : ℕ → Bool) (gx gy : ℤ) (r : ℕ)
    (acc : BrushAcc) (d : ℤ × ℤ) : BrushAcc :=
  let x := gx + d.1
  let y := gy + d.2
  if x < 0 ∨ y < 0 ∨ (acc.w.gridW : ℤ) ≤ x ∨ (acc.w.gridH : ℤ) ≤ y then acc
  else if (r : ℤ) ^ 2 < d.1 ^ 2 + d.2 ^ 2 then acc
  else if coin acc.coins then
    let i := gidx acc.w.gridW x.toNat y.toNat
    let mi := jsOrIdx (getMatIndex reg id) (getMatIndex reg "EMPTY")
    let w1 := { acc.w with mat := acc.w.mat.set i mi, temp := acc.w.temp.set i (brushCellTemp reg id) }
    { w := markChunkDirtyForCell w1 x.toNat y.toNat, coins := acc.coins + 1, log := acc.log ++ [(x, y)] }
  else { acc with coins := acc.coins + 1 }

/-- `drawBrushAt(gx,gy)` with brush radius `r` and current material `id`:
`dy` outer loop, `dx` inner loop, each from `-r` to `r`. -/
def drawBrushAt (reg : Registry) (id : String) (coin : ℕ → Bool) (w : World) (gx gy : ℤ) (r : ℕ) : BrushAcc :=
  (offsets r).foldl
    (fun a dy => (offsets r).foldl (fun a2 dx => brushVisit reg id coin gx gy r a2 (dx, dy)) a)
    ⟨w, 0, []⟩

/-! ## World save / load -/

/-- A parsed save file `{w, h, mat, temp}`; `none` models an absent
(`undefined`) field. -/
structure Snapshot where
  w : ℕ
  h : ℕ
  mat : Option (List ℤ)
  temp : Option (List ℚ)

/-- Failure modes of the load path: the `alert('Invalid save file')`
branch, and a `RangeError` thrown by `TypedArray.prototype.set`. -/
inductive LoadError
  | invalidSave
  | rangeError
  deriving DecidableEq

/-- `TypedArray.prototype.set(src)`: throws (`none`) when the source is
longer than the target, otherwise overwrites the prefix. -/
def typedSet {α : Type} (dst src : List α) : Option (List α) :=
  if src.length ≤ dst.length then some (src ++ dst.drop src.length) else none

/-- The world-load logic of `loadWorldPrompt`'s `onload` handler: a
truthiness check of `w`, `h`, `mat`, then `allocateWorld(w,h)` (via
`setResolution` and again directly), then `worldMat.set(parsed.mat)` and
`worldTemp.set(parsed.temp || new Float32Array(w*h))`, then
`markAllDirty()`.  Returns the resulting world (whatever was in place
when the handler finished, normally or by a thrown `RangeError`) together
with the error, if any. -/
def loadWorld (reg : Registry) (prev : World) (s : Snapshot) : World × Option LoadError :=
  if s.w ≠ 0 ∧ s.h ≠ 0 ∧ s.mat.isSome then
    let fresh := allocateWorld reg s.w s.h
    match typedSet fresh.mat (s.mat.getD []) with
    | none => (fresh, some .rangeError)
    | some m2 =>
      let w2 := { fresh with mat := m2 }
      match typedSet w2.temp (s.temp.getD (List.replicate (s.w * s.h) 0)) with
      | none => (w2, some .rangeError)
      | some t2 => (markAllDirty { w2 with temp := t2 }, none)
  else (prev, some .invalidSave)

/-! ## The specification's own formulas (for refinement comparison) -/

/-- From the spec's words (§4.3 step 4 / claim C5): the claimed
temperature update `t + 0.1 * (m - t)` where `m` is the arithmetic mean
of the up-to-4 existing orthogonal neighbour temperatures, the cell's own
temperature not being part of the mean. -/
def specTempUpdate (t : ℚ) (ns : List ℚ) : ℚ :=
  t + (ns.sum / (ns.length : ℚ) - t) * (1/10)

/-! ## Inert cells (for the amended C2) -/

/-- A `materialIndex` value is *inert* for pass 2 when it resolves to no
material at all, or to a material other than ACID, OIL and SEED — the
three materials whose reaction checks sample the unseeded
`Math.random()`. -/
def inert (reg : Registry) (v : ℤ) : Bool :=
  match getMatByIndex reg v with
  | none => true
  | some m => !(m.id == "ACID" || m.id == "OIL" || m.id == "SEED")

/-- Every cell of a material array is inert. -/
def allInert (reg : Registry) (l : List ℤ) : Bool :=
  l.all (inert reg)

/-- Registry-level side condition for the amended C2: every value the
movement/temperature pass can write into a cell (the `Int32Array`
out-of-range default `0` and the EMPTY / STEAM / STONE / FIRE indices) is
itself inert.  This holds for the spec registry, where none of those
materials react in pass 2. -/
def inertVals (reg : Registry) : Bool :=
  inert reg 0 && inert reg (toInt32 (getMatIndex reg "EMPTY")) &&
    inert reg (toInt32 (getMatIndex reg "STEAM")) &&
    inert reg (toInt32 (getMatIndex reg "STONE")) &&
    inert reg (toInt32 (getMatIndex reg "FIRE"))

/-! ## Concrete fixtures used by counterexamples and witnesses -/

/-- the C6 scenario as the code actually builds it: a freshly allocated
10×10 world with one sand cell painted at (5,0). -/
def c6World : World := setMatAt defaultRegistry (allocateWorld defaultRegistry 10 10) 5 0 "SAND"

/-- 3×1 grid `WALL | OIL | FIRE` (spec registry indices 13, 5, 3). -/
def c2World : World :=
  { gridW := 3, gridH := 1, mat := [13, 5, 3], temp := [20, 20, 20], meta := [0, 0, 0],
    chunksX := 1, chunksY := 1, dirty := [false] }

/-- 1×2 grid with sand above water. -/
def c3World : World :=
  { gridW := 1, gridH := 2, mat := [1, 2], temp := [20, 20], meta := [0, 0],
    chunksX := 1, chunksY := 1, dirty := [false] }

/-- 1×1 grid holding a single sand cell. -/
def c4World : World :=
  { gridW := 1, gridH := 1, mat := [1], temp := [20], meta := [0],
    chunksX := 1, chunksY := 1, dirty := [false] }

/-- 1×2 grid with sand above an empty (index 0) cell. -/
def c3bWorld : World :=
  { gridW := 1, gridH := 2, mat := [1, 0], temp := [20, 20], meta := [0, 0],
    chunksX := 1, chunksY := 1, dirty := [false] }

/-- 2×1 all-stone grid with temperatures 7 and 9. -/
def c5bWorld : World :=
  { gridW := 2, gridH := 1, mat := [4, 4], temp := [7, 9], meta := [0, 0],
    chunksX := 1, chunksY := 1, dirty := [false] }

/-- 2×1 all-empty grid with temperatures 0 and 1. -/
def c5World : World :=
  { gridW := 2, gridH := 1, mat := [0, 0], temp := [0, 1], meta := [0, 0],
    chunksX := 1, chunksY := 1, dirty := [false] }

/-- Fixture for the C2 witness: a 2×1 strip over the spec registry holding
SAND (index 1) above WATER (index 2) — no ACID, OIL or SEED anywhere. -/
def c2iWorld : World :=
  { allocateWorld specRegistry 2 1 with mat := [1, 2] }


/-! ## Helper lemmas -/

theorem prodFst {A B : Type} (a : A) (b : B) : (a, b).1 = a := rfl

theorem prodSnd {A B : Type} (a : A) (b : B) : (a, b).2 = b := rfl

theorem ssW (w : World) (r c : ℕ) : (SimState.mk w r c).w = w := rfl

theorem ssRng (w : World) (r c : ℕ) : (SimState.mk w r c).rng = r := rfl

theorem ssMrc (w : World) (r c : ℕ) : (SimState.mk w r c).mrc = c := rfl

theorem markChunk_gridW (w : World) (x y : ℕ) : (markChunkDirtyForCell w x y).gridW = w.gridW := by
  simp only [markChunkDirtyForCell]; split <;> rfl

theorem markChunk_gridH (w : World) (x y : ℕ) : (markChunkDirtyForCell w x y).gridH = w.gridH := by
  simp only [markChunkDirtyForCell]; split <;> rfl

theorem markChunk_mat (w : World) (x y : ℕ) : (markChunkDirtyForCell w x y).mat = w.mat := by
  simp only [markChunkDirtyForCell]; split <;> rfl

theorem markChunk_temp (w : World) (x y : ℕ) : (markChunkDirtyForCell w x y).temp = w.temp := by
  simp only [markChunkDirtyForCell]; split <;> rfl

theorem markChunk_meta (w : World) (x y : ℕ) : (markChunkDirtyForCell w x y).meta = w.meta := by
  simp only [markChunkDirtyForCell]; split <;> rfl

theorem moveCell_temp (reg : Registry) (w : World) (x y x' y' : ℕ) (m : ℤ) :
    (moveCell reg w x y x' y' m).temp = w.temp := by
  simp only [moveCell]; rw [markChunk_temp, markChunk_temp]

theorem moveCell_meta (reg : Registry) (w : World) (x y x' y' : ℕ) (m : ℤ) :
    (moveCell reg w x y x' y' m).meta = w.meta := by
  simp only [moveCell]; rw [markChunk_meta, markChunk_meta]

theorem moveCell_mat (reg : Registry) (w : World) (x y x' y' : ℕ) (m : ℤ) :
    (moveCell reg w x y x' y' m).mat =
      (w.mat.set (gidx w.gridW x' y') m).set (gidx w.gridW x y) (toInt32 (getMatIndex reg "EMPTY")) := by
  simp only [moveCell]; rw [markChunk_mat, markChunk_mat]

theorem sandStage_temp (reg : Registry) (st : SimState) (x y : ℕ) (m : ℤ) :
    (sandStage reg st x y m).1.w.temp = st.w.temp := by
  simp only [sandStage]
  repeat' split
  all_goals rw [prodFst, ssW]
  all_goals rw [moveCell_temp]

theorem sandStage_meta (reg : Registry) (st : SimState) (x y : ℕ) (m : ℤ) :
    (sandStage reg st x y m).1.w.meta = st.w.meta := by
  simp only [sandStage]
  repeat' split
  all_goals rw [prodFst, ssW]
  all_goals rw [moveCell_meta]

theorem flowStage_temp (reg : Registry) (st : SimState) (x y : ℕ) (m : ℤ) :
    (flowStage reg st x y m).1.w.temp = st.w.temp := by
  simp only [flowStage]
  repeat' split
  all_goals rw [prodFst, ssW]
  all_goals rw [moveCell_temp]

theorem flowStage_meta (reg : Registry) (st : SimState) (x y : ℕ) (m : ℤ) :
    (flowStage reg st x y m).1.w.meta = st.w.meta := by
  simp only [flowStage]
  repeat' split
  all_goals rw [prodFst, ssW]
  all_goals rw [moveCell_meta]

theorem gasStage_temp (reg : Registry) (st : SimState) (x y : ℕ) (m : ℤ) :
    (gasStage reg st x y m).1.w.temp = st.w.temp := by
  simp only [gasStage]
  repeat' split
  all_goals rw [prodFst, ssW]
  all_goals rw [moveCell_temp]

theorem gasStage_meta (reg : Registry) (st : SimState) (x y : ℕ) (m : ℤ) :
    (gasStage reg st x y m).1.w.meta = st.w.meta := by
  simp only [gasStage]
  repeat' split
  all_goals rw [prodFst, ssW]
  all_goals rw [moveCell_meta]

theorem contOr_of_true (a : SimState × Bool) (f : SimState → SimState × Bool) (h : a.2 = true) :
    contOr a f = a := by
  unfold contOr; rw [if_pos h]

theorem contOr_temp (a : SimState × Bool) (f : SimState → SimState × Bool)
    (hf : ∀ s, (f s).1.w.temp = s.w.temp) : (contOr a f).1.w.temp = a.1.w.temp := by
  unfold contOr; split
  · rfl
  · exact hf a.1

theorem contOr_meta (a : SimState × Bool) (f : SimState → SimState × Bool)
    (hf : ∀ s, (f s).1.w.meta = s.w.meta) : (contOr a f).1.w.meta = a.1.w.meta := by
  unfold contOr; split
  · rfl
  · exact hf a.1

theorem moveStages_temp (reg : Registry) (st : SimState) (x y : ℕ) (mIdx : ℤ) (m : Material) :
    (moveStages reg st x y mIdx m).1.w.temp = st.w.temp := by
  unfold moveStages
  rw [contOr_temp]
  · split
    · rw [sandStage_temp]
    · rw [prodFst]
  · intro s1
    rw [contOr_temp]
    · split
      · rw [flowStage_temp]
      · rw [prodFst]
    · intro s2
      split
      · rw [gasStage_temp]
      · rw [prodFst]

theorem moveStages_meta (reg : Registry) (st : SimState) (x y : ℕ) (mIdx : ℤ) (m : Material) :
    (moveStages reg st x y mIdx m).1.w.meta = st.w.meta := by
  unfold moveStages
  rw [contOr_meta]
  · split
    · rw [sandStage_meta]
    · rw [prodFst]
  · intro s1
    rw [contOr_meta]
    · split
      · rw [flowStage_meta]
      · rw [prodFst]
    · intro s2
      split
      · rw [gasStage_meta]
      · rw [prodFst]

theorem count_set_swap (l : List ℤ) (i j : ℕ) (hi : i < l.length) (hj : j < l.length)
    (hij : i ≠ j) (v : ℤ) :
    ((l.set j (l.getD i 0)).set i (l.getD j 0)).count v = l.count v := by
  have hi' : l.getD i 0 = l.get ⟨i, hi⟩ := by
    rw [List.getD_eq_getElem l 0 hi]; rfl
  have hj' : l.getD j 0 = l.get ⟨j, hj⟩ := by
    rw [List.getD_eq_getElem l 0 hj]; rfl
  have hlen : (l.set j (l.getD i 0)).length = l.length := by simp
  have hi2 : i < (l.set j (l.getD i 0)).length := by rw [hlen]; exact hi
  rw [List.count_set _ _ _ _ hi2, List.count_set _ _ _ _ hj]
  have hgs : (l.set j (l.getD i 0)).get ⟨i, hi2⟩ = l.get ⟨i, hi⟩ := by
    simp only [List.get_eq_getElem]
    exact List.getElem_set_ne (Ne.symm hij) _
  simp only [List.get_eq_getElem] at hgs hi' hj'
  rw [hgs, hi', hj']
  have hcv : l[i] = v ∨ l[j] = v → 0 < l.count v := by
    rintro (hh | hh)
    · exact List.count_pos_iff.mpr (hh ▸ List.getElem_mem hi)
    · exact List.count_pos_iff.mpr (hh ▸ List.getElem_mem hj)
  by_cases hiv : l[i] = v <;> by_cases hjv : l[j] = v <;>
    simp only [hiv, hjv, beq_iff_eq, if_pos, if_neg, beq_self_eq_true, ite_true, ite_false] <;>
    first
      | omega
      | (have h1 := hcv (Or.inl hiv); omega)
      | (have h1 := hcv (Or.inr hjv); omega)
      | (simp only [hiv, hjv]; omega)

theorem gidx_lt (W H x y : ℕ) (hx : x < W) (hy : y < H) : gidx W x y < W * H := by
  unfold gidx
  calc y * W + x < y * W + W := by omega
    _ = (y + 1) * W := by ring
    _ ≤ H * W := Nat.mul_le_mul_right W hy
    _ = W * H := Nat.mul_comm H W

theorem getD_set_ne {α : Type} (l : List α) (i j : ℕ) (b d : α) (h : i ≠ j) :
    (l.set i b).getD j d = l.getD j d := by
  simp [List.getD_eq_getElem?_getD, List.getElem?_set_ne h]

theorem getD_set_self {α : Type} (l : List α) (i : ℕ) (b d : α) (h : i < l.length) :
    (l.set i b).getD i d = b := by
  simp [List.getD_eq_getElem?_getD, List.getElem?_set_eq_of_lt b h]

theorem getD_replicate_lt {α : Type} (n c : ℕ) (a d : α) (h : c < n) :
    (List.replicate n a).getD c d = a := by
  simp [List.getD_eq_getElem?_getD, List.getElem?_replicate, h]

theorem getD_true_lt (l : List Bool) (c : ℕ) (h : l.getD c false = true) : c < l.length := by
  by_contra hc
  rw [List.getD_eq_default] at h
  · exact Bool.noConfusion h
  · omega

/-- abbreviation used throughout: the flat chunk index visited by the
renderer for chunk coordinates `p`. -/
theorem visitChunk_fields (cX : ℕ) (acc : List (ℕ × ℕ) × World) (p : ℕ × ℕ) :
    (visitChunk cX acc p).2.gridW = acc.2.gridW ∧
    (visitChunk cX acc p).2.gridH = acc.2.gridH ∧
    (visitChunk cX acc p).2.chunksX = acc.2.chunksX ∧
    (visitChunk cX acc p).2.chunksY = acc.2.chunksY ∧
    (visitChunk cX acc p).2.dirty.length = acc.2.dirty.length := by
  simp only [visitChunk]
  split
  · simp
  · exact ⟨rfl, rfl, rfl, rfl, rfl⟩

theorem visitFold_fields (cX : ℕ) (ps : List (ℕ × ℕ)) (l : List (ℕ × ℕ)) (w : World) :
    (ps.foldl (visitChunk cX) (l, w)).2.gridW = w.gridW ∧
    (ps.foldl (visitChunk cX) (l, w)).2.gridH = w.gridH ∧
    (ps.foldl (visitChunk cX) (l, w)).2.chunksX = w.chunksX ∧
    (ps.foldl (visitChunk cX) (l, w)).2.chunksY = w.chunksY ∧
    (ps.foldl (visitChunk cX) (l, w)).2.dirty.length = w.dirty.length := by
  induction ps generalizing l w with
  | nil => exact ⟨rfl, rfl, rfl, rfl, rfl⟩
  | cons p tl ih =>
    rw [List.foldl_cons]
    have hv := visitChunk_fields cX (l, w) p
    have step : visitChunk cX (l, w) p = ((visitChunk cX (l, w) p).1, (visitChunk cX (l, w) p).2) := rfl
    rw [step]
    have hrec := ih (visitChunk cX (l, w) p).1 (visitChunk cX (l, w) p).2
    exact ⟨hrec.1.trans hv.1, hrec.2.1.trans hv.2.1, hrec.2.2.1.trans hv.2.2.1,
           hrec.2.2.2.1.trans hv.2.2.2.1, hrec.2.2.2.2.trans hv.2.2.2.2⟩

theorem visitFold_flag (cX : ℕ) (ps : List (ℕ × ℕ)) (l : List (ℕ × ℕ)) (w : World) (c : ℕ) :
    (ps.foldl (visitChunk cX) (l, w)).2.dirty.getD c false =
      (w.dirty.getD c false && !((ps.map (fun p => p.2 * cX + p.1)).contains c)) := by
  induction ps generalizing l w with
  | nil => simp
  | cons p tl ih =>
    rw [List.foldl_cons, List.map_cons]
    by_cases hg : w.dirty.getD (p.2 * cX + p.1) false = true
    · have hv : visitChunk cX (l, w) p =
          (l ++ [p], { w with dirty := w.dirty.set (p.2 * cX + p.1) false }) := by
        simp only [visitChunk]
        rw [if_pos hg]
      rw [hv, ih]
      by_cases hc : c = p.2 * cX + p.1
      · rw [hc]
        have hlt : (p.2 * cX + p.1) < w.dirty.length := getD_true_lt _ _ hg
        rw [getD_set_self _ _ _ _ hlt]
        simp [List.contains_cons]
      · rw [getD_set_ne _ _ _ _ _ (fun he => hc he.symm)]
        have hbq : (c == p.2 * cX + p.1) = false := beq_eq_false_iff_ne.mpr hc
        simp [List.contains_cons, hbq]
    · have hv : visitChunk cX (l, w) p = (l, w) := by
        simp only [visitChunk]
        rw [if_neg hg]
      rw [hv, ih]
      by_cases hc : c = p.2 * cX + p.1
      · rw [hc]
        have hfalse : w.dirty.getD (p.2 * cX + p.1) false = false := by
          cases hgg : w.dirty.getD (p.2 * cX + p.1) false
          · rfl
          · exact absurd hgg hg
        rw [hfalse]
        simp
      · have hbq : (c == p.2 * cX + p.1) = false := beq_eq_false_iff_ne.mpr hc
        simp [List.contains_cons, hbq]

theorem visitFold_log (cX : ℕ) (ps : List (ℕ × ℕ)) (l : List (ℕ × ℕ)) (w : World)
    (hnd : (ps.map (fun p => p.2 * cX + p.1)).Nodup) :
    (ps.foldl (visitChunk cX) (l, w)).1 =
      l ++ ps.filter (fun p => w.dirty.getD (p.2 * cX + p.1) false) := by
  induction ps generalizing l w with
  | nil => simp
  | cons p tl ih =>
    rw [List.map_cons, List.nodup_cons] at hnd
    rw [List.foldl_cons]
    by_cases hg : w.dirty.getD (p.2 * cX + p.1) false = true
    · have hv : visitChunk cX (l, w) p =
          (l ++ [p], { w with dirty := w.dirty.set (p.2 * cX + p.1) false }) := by
        simp only [visitChunk]
        rw [if_pos hg]
      rw [hv, ih _ _ hnd.2]
      have hcong : tl.filter
            (fun q => ({ w with dirty := w.dirty.set (p.2 * cX + p.1) false } : World).dirty.getD
              (q.2 * cX + q.1) false) =
          tl.filter (fun q => w.dirty.getD (q.2 * cX + q.1) false) := by
        refine List.filter_congr ?_
        intro q hq
        have hne : q.2 * cX + q.1 ≠ p.2 * cX + p.1 := by
          intro he
          exact hnd.1 (he ▸ List.mem_map_of_mem (fun r => r.2 * cX + r.1) hq)
        show (w.dirty.set (p.2 * cX + p.1) false).getD (q.2 * cX + q.1) false =
          w.dirty.getD (q.2 * cX + q.1) false
        exact getD_set_ne _ _ _ _ _ (fun he => hne he.symm)
      rw [hcong]
      rw [List.filter_cons, if_pos hg]
      simp
    · have hv : visitChunk cX (l, w) p = (l, w) := by
        simp only [visitChunk]
        rw [if_neg hg]
      rw [hv, ih _ _ hnd.2]
      rw [List.filter_cons, if_neg hg]

theorem map_chunkOrder (cX cY : ℕ) :
    (chunkOrder cX cY).map (fun p => p.2 * cX + p.1) = List.range (cY * cX) := by
  induction cY with
  | zero => simp [chunkOrder]
  | succ n ih =>
    unfold chunkOrder at ih ⊢
    rw [List.range_succ]
    simp only [List.map_append, List.flatten_append, List.map_cons, List.map_nil,
      List.flatten_cons, List.flatten_nil, List.append_nil, List.map_map]
    rw [ih]
    have hmul : (n + 1) * cX = n * cX + cX := by ring
    rw [hmul, List.range_add]
    congr 1

theorem chunkOrder_nodup_idx (cX cY : ℕ) :
    ((chunkOrder cX cY).map (fun p => p.2 * cX + p.1)).Nodup := by
  rw [map_chunkOrder]
  exact List.nodup_range _

theorem chunkOrder_mem (cX cY cx cy : ℕ) :
    (cx, cy) ∈ chunkOrder cX cY ↔ cx < cX ∧ cy < cY := by
  simp only [chunkOrder, List.mem_flatten, List.mem_map]
  constructor
  · rintro ⟨l, ⟨a, ha, rfl⟩, hmem⟩
    rcases List.mem_map.mp hmem with ⟨b, hb, heq⟩
    obtain ⟨h1, h2⟩ := Prod.mk.injEq _ _ _ _ |>.mp heq
    subst h1; subst h2
    exact ⟨List.mem_range.mp hb, List.mem_range.mp ha⟩
  · rintro ⟨h1, h2⟩
    exact ⟨(List.range cX).map (fun c => (c, cy)), ⟨cy, List.mem_range.mpr h2, rfl⟩,
      List.mem_map.mpr ⟨cx, List.mem_range.mpr h1, rfl⟩⟩

theorem chunkOrder_mem_bound (cX cY : ℕ) (p : ℕ × ℕ) (h : p ∈ chunkOrder cX cY) :
    p.2 * cX + p.1 < cX * cY := by
  rcases p with ⟨cx, cy⟩
  rcases (chunkOrder_mem cX cY cx cy).mp h with ⟨h1, h2⟩
  exact gidx_lt cX cY cx cy h1 h2

theorem filter_eq_singleton_chunk (cX : ℕ) (ps : List (ℕ × ℕ)) (p0 : ℕ × ℕ)
    (hnd : (ps.map (fun p => p.2 * cX + p.1)).Nodup) (hmem : p0 ∈ ps)
    (hinj : ∀ q ∈ ps, q.2 * cX + q.1 = p0.2 * cX + p0.1 → q = p0)
    (pred : ℕ × ℕ → Bool)
    (hpred : ∀ q ∈ ps, pred q = decide (q.2 * cX + q.1 = p0.2 * cX + p0.1)) :
    ps.filter pred = [p0] := by
  induction ps with
  | nil => cases hmem
  | cons q tl ih =>
    rw [List.map_cons, List.nodup_cons] at hnd
    rw [List.filter_cons]
    by_cases he : q = p0
    · subst he
      have hq : pred q = true := by
        rw [hpred q (List.mem_cons_self _ _)]
        simp
      rw [if_pos hq]
      have htl : tl.filter pred = [] := by
        refine List.filter_eq_nil_iff.mpr ?_
        intro r hr
        rw [hpred r (List.mem_cons_of_mem _ hr)]
        intro hcon
        have : r.2 * cX + r.1 = q.2 * cX + q.1 := of_decide_eq_true hcon
        exact hnd.1 (this ▸ List.mem_map_of_mem (fun p => p.2 * cX + p.1) hr)
      rw [htl]
    · have hq : pred q = false := by
        rw [hpred q (List.mem_cons_self _ _)]
        refine decide_eq_false ?_
        intro hcon
        exact he (hinj q (List.mem_cons_self _ _) hcon)
      rw [if_neg (by rw [hq]; exact Bool.false_ne_true)]
      have hmem2 : p0 ∈ tl := by
        rcases List.mem_cons.mp hmem with h | h
        · exact absurd h.symm he
        · exact h
      exact ih hnd.2 hmem2
        (fun r hr => hinj r (List.mem_cons_of_mem _ hr))
        (fun r hr => hpred r (List.mem_cons_of_mem _ hr))

theorem div_lt_chunks (w x : ℕ) (hx : x < w) :
    x / chunkSize < max 1 ((w + (chunkSize - 1)) / chunkSize) := by
  have h1 : (x + chunkSize) / chunkSize ≤ (w + (chunkSize - 1)) / chunkSize :=
    Nat.div_le_div_right (by unfold chunkSize; omega)
  rw [Nat.add_div_right _ (by decide : 0 < chunkSize)] at h1
  exact lt_of_lt_of_le h1 (le_max_right _ _)

theorem chunk_coord_unique (cX a b a' b' : ℕ) (ha : a < cX) (ha' : a' < cX)
    (h : b * cX + a = b' * cX + a') : a = a' ∧ b = b' := by
  have hcx : 0 < cX := by omega
  constructor
  · have e1 : (b * cX + a) % cX = a := by
      rw [Nat.mul_comm b cX, Nat.mul_add_mod, Nat.mod_eq_of_lt ha]
    have e2 : (b' * cX + a') % cX = a' := by
      rw [Nat.mul_comm b' cX, Nat.mul_add_mod, Nat.mod_eq_of_lt ha']
    rw [← e1, ← e2, h]
  · have e1 : (b * cX + a) / cX = b := by
      rw [Nat.mul_comm b cX, Nat.mul_add_div hcx, Nat.div_eq_of_lt ha, Nat.add_zero]
    have e2 : (b' * cX + a') / cX = b' := by
      rw [Nat.mul_comm b' cX, Nat.mul_add_div hcx, Nat.div_eq_of_lt ha', Nat.add_zero]
    rw [← e1, ← e2, h]

theorem takeDirty_allTrue (T : World)
    (hall : T.dirty = List.replicate (T.chunksX * T.chunksY) true) :
    (takeDirtyChunks T).1 = chunkOrder T.chunksX T.chunksY := by
  simp only [takeDirtyChunks]
  rw [visitFold_log _ _ _ _ (chunkOrder_nodup_idx _ _), List.nil_append]
  apply List.filter_eq_self.mpr
  intro p hp
  rw [hall, getD_replicate_lt]
  exact chunkOrder_mem_bound _ _ p hp

theorem takeDirty_clean (T : World) (hclean : ∀ c, T.dirty.getD c false = false) :
    (takeDirtyChunks T).1 = [] := by
  simp only [takeDirtyChunks]
  rw [visitFold_log _ _ _ _ (chunkOrder_nodup_idx _ _), List.nil_append]
  apply List.filter_eq_nil_iff.mpr
  intro p hp
  rw [hclean]
  exact Bool.false_ne_true

theorem takeDirty_single (T : World) (c0x c0y : ℕ) (h0x : c0x < T.chunksX) (h0y : c0y < T.chunksY)
    (hpred : ∀ c, T.dirty.getD c false = decide (c = c0y * T.chunksX + c0x)) :
    (takeDirtyChunks T).1 = [(c0x, c0y)] := by
  simp only [takeDirtyChunks]
  rw [visitFold_log _ _ _ _ (chunkOrder_nodup_idx _ _), List.nil_append]
  refine filter_eq_singleton_chunk _ _ (c0x, c0y) (chunkOrder_nodup_idx _ _)
    ((chunkOrder_mem _ _ _ _).mpr ⟨h0x, h0y⟩) ?_ _ ?_
  · intro q hq he
    rcases q with ⟨qx, qy⟩
    rcases (chunkOrder_mem _ _ _ _).mp hq with ⟨hqx, hqy⟩
    dsimp only at he
    obtain ⟨e1, e2⟩ := chunk_coord_unique _ _ _ _ _ hqx h0x he
    rw [e1, e2]
  · intro q hq
    exact hpred _

theorem takeDirty_flag_false (T : World) (c : ℕ) (hlen : T.dirty.length ≤ T.chunksX * T.chunksY) :
    (takeDirtyChunks T).2.dirty.getD c false = false := by
  simp only [takeDirtyChunks]
  rw [visitFold_flag]
  by_cases hcb : c < T.chunksY * T.chunksX
  · have hcont : ((chunkOrder T.chunksX T.chunksY).map (fun p => p.2 * T.chunksX + p.1)).contains c
        = true := by
      rw [map_chunkOrder]
      simp [List.contains_cons, List.mem_range, hcb]
    rw [hcont]
    simp
  · have hge : T.dirty.length ≤ c := by
      rw [Nat.mul_comm] at hcb
      omega
    rw [List.getD_eq_default _ _ hge]
    simp

theorem takeDirty_fields (T : World) :
    (takeDirtyChunks T).2.gridW = T.gridW ∧ (takeDirtyChunks T).2.gridH = T.gridH ∧
    (takeDirtyChunks T).2.chunksX = T.chunksX ∧ (takeDirtyChunks T).2.chunksY = T.chunksY ∧
    (takeDirtyChunks T).2.dirty.length = T.dirty.length := by
  simp only [takeDirtyChunks]
  exact visitFold_fields _ _ _ _

theorem tempDiffuse_eq_mean (temp : List ℚ) (W H x y : ℕ) :
    tempDiffuse temp W H x y =
      temp.getD (gidx W x y) 0 +
        ((temp.getD (gidx W x y) 0 +
            ((neighborCoords W H x y).map (fun p => temp.getD (gidx W p.1 p.2) 0)).sum) /
            (1 + ((neighborCoords W H x y).length : ℚ)) -
          temp.getD (gidx W x y) 0) * (1/10) := by
  unfold tempDiffuse neighborCoords
  split_ifs <;>
    simp [List.sum_append] <;>
    ring_nf <;>
    norm_num

theorem markChunk_dims (w : World) (x y : ℕ) :
    (markChunkDirtyForCell w x y).gridW = w.gridW ∧ (markChunkDirtyForCell w x y).gridH = w.gridH := by
  simp only [markChunkDirtyForCell]; split
  · exact ⟨rfl, rfl⟩
  · exact ⟨rfl, rfl⟩

theorem brushVisit_preserves (reg : Registry) (id : String) (coin : ℕ → Bool) (gx gy : ℤ) (r : ℕ)
    (w0 : World) (d : ℤ × ℤ) (acc : BrushAcc)
    (h1 : acc.w.gridW = w0.gridW) (h2 : acc.w.gridH = w0.gridH)
    (h3 : acc.w.mat.length = w0.mat.length) (h4 : acc.w.temp.length = w0.temp.length)
    (h5 : ∀ p ∈ acc.log, 0 ≤ p.1 ∧ p.1 < w0.gridW ∧ 0 ≤ p.2 ∧ p.2 < w0.gridH) :
    (brushVisit reg id coin gx gy r acc d).w.gridW = w0.gridW ∧
    (brushVisit reg id coin gx gy r acc d).w.gridH = w0.gridH ∧
    (brushVisit reg id coin gx gy r acc d).w.mat.length = w0.mat.length ∧
    (brushVisit reg id coin gx gy r acc d).w.temp.length = w0.temp.length ∧
    ∀ p ∈ (brushVisit reg id coin gx gy r acc d).log,
      0 ≤ p.1 ∧ p.1 < w0.gridW ∧ 0 ≤ p.2 ∧ p.2 < w0.gridH := by
  simp only [brushVisit]
  split
  · exact ⟨h1, h2, h3, h4, h5⟩
  · next hguard =>
    push_neg at hguard
    split
    · exact ⟨h1, h2, h3, h4, h5⟩
    · split
      · refine ⟨?_, ?_, ?_, ?_, ?_⟩
        · rw [(markChunk_dims _ _ _).1]; exact h1
        · rw [(markChunk_dims _ _ _).2]; exact h2
        · rw [markChunk_mat]; simpa using h3
        · rw [markChunk_temp]; simpa using h4
        · intro p hp
          rcases List.mem_append.mp hp with hp1 | hp2
          · exact h5 p hp1
          · rcases List.mem_singleton.mp hp2 with rfl
            refine ⟨hguard.1, ?_, hguard.2.1, ?_⟩
            · rw [← h1]; exact hguard.2.2.1
            · rw [← h2]; exact hguard.2.2.2
      · exact ⟨h1, h2, h3, h4, h5⟩

theorem wMkMat (gw gh : ℕ) (m : List ℤ) (t : List ℚ) (me : List ℕ) (cx cy : ℕ) (d : List Bool) :
    (World.mk gw gh m t me cx cy d).mat = m := rfl

theorem allInert_set (reg : Registry) (l : List ℤ) (i : ℕ) (v : ℤ)
    (hl : allInert reg l = true) (hv : inert reg v = true) :
    allInert reg (l.set i v) = true := by
  simp only [allInert, List.all_eq_true] at hl ⊢
  intro a ha
  rcases List.mem_or_eq_of_mem_set ha with h | h
  · exact hl a h
  · exact h ▸ hv

theorem getD_inert (reg : Registry) (l : List ℤ) (i : ℕ)
    (hl : allInert reg l = true) (h0 : inert reg 0 = true) :
    inert reg (l.getD i 0) = true := by
  by_cases h : i < l.length
  · rw [List.getD_eq_getElem l 0 h]
    simp only [allInert, List.all_eq_true] at hl
    exact hl _ (List.getElem_mem h)
  · rw [List.getD_eq_default l 0 (Nat.le_of_not_lt h)]
    exact h0

theorem moveCell_inert (reg : Registry) (w : World) (x y x' y' : ℕ) (mIdx : ℤ)
    (hw : allInert reg w.mat = true) (hm : inert reg mIdx = true)
    (he : inert reg (toInt32 (getMatIndex reg "EMPTY")) = true) :
    allInert reg (moveCell reg w x y x' y' mIdx).mat = true := by
  rw [moveCell_mat]
  exact allInert_set reg _ _ _ (allInert_set reg _ _ _ hw hm) he

theorem sandStage_inert (reg : Registry) (st : SimState) (x y : ℕ) (mIdx : ℤ)
    (hw : allInert reg st.w.mat = true) (hm : inert reg mIdx = true)
    (he : inert reg (toInt32 (getMatIndex reg "EMPTY")) = true) :
    allInert reg (sandStage reg st x y mIdx).1.w.mat = true := by
  simp only [sandStage]
  repeat' split
  all_goals rw [prodFst]
  all_goals first
    | exact hw
    | (rw [ssW]; first
        | exact hw
        | exact moveCell_inert reg _ _ _ _ _ _ hw hm he)

theorem flowStage_inert (reg : Registry) (st : SimState) (x y : ℕ) (mIdx : ℤ)
    (hw : allInert reg st.w.mat = true) (hm : inert reg mIdx = true)
    (he : inert reg (toInt32 (getMatIndex reg "EMPTY")) = true) :
    allInert reg (flowStage reg st x y mIdx).1.w.mat = true := by
  simp only [flowStage]
  repeat' split
  all_goals rw [prodFst]
  all_goals first
    | exact hw
    | (rw [ssW]; first
        | exact hw
        | exact moveCell_inert reg _ _ _ _ _ _ hw hm he)

theorem gasStage_inert (reg : Registry) (st : SimState) (x y : ℕ) (mIdx : ℤ)
    (hw : allInert reg st.w.mat = true) (hm : inert reg mIdx = true)
    (he : inert reg (toInt32 (getMatIndex reg "EMPTY")) = true) :
    allInert reg (gasStage reg st x y mIdx).1.w.mat = true := by
  simp only [gasStage]
  repeat' split
  all_goals rw [prodFst]
  all_goals first
    | exact hw
    | (rw [ssW]; first
        | exact hw
        | exact moveCell_inert reg _ _ _ _ _ _ hw hm he)

theorem contOr_inert (reg : Registry) (a : SimState × Bool) (f : SimState → SimState × Bool)
    (ha : allInert reg a.1.w.mat = true)
    (hf : ∀ s, allInert reg s.w.mat = true → allInert reg (f s).1.w.mat = true) :
    allInert reg (contOr a f).1.w.mat = true := by
  unfold contOr; split
  · exact ha
  · exact hf a.1 ha

theorem moveStages_inert (reg : Registry) (st : SimState) (x y : ℕ) (mIdx : ℤ) (m : Material)
    (hw : allInert reg st.w.mat = true) (hm : inert reg mIdx = true)
    (he : inert reg (toInt32 (getMatIndex reg "EMPTY")) = true) :
    allInert reg (moveStages reg st x y mIdx m).1.w.mat = true := by
  unfold moveStages
  apply contOr_inert
  · split
    · exact sandStage_inert reg st x y mIdx hw hm he
    · exact hw
  · intro s hs
    apply contOr_inert
    · split
      · exact flowStage_inert reg s x y mIdx hs hm he
      · exact hs
    · intro s2 hs2
      split
      · exact gasStage_inert reg s2 x y mIdx hs2 hm he
      · exact hs2

theorem allInert_step (reg : Registry) {c : Prop} [Decidable c] {W : World} {tnew : List ℚ}
    {i : ℕ} {v : ℤ} {x y : ℕ}
    (hW : allInert reg W.mat = true) (hv : inert reg v = true) :
    allInert reg
      (if c then markChunkDirtyForCell { W with mat := W.mat.set i v, temp := tnew } x y
       else W).mat = true := by
  split
  · rw [markChunk_mat, wMkMat]; exact allInert_set reg _ _ _ hW hv
  · exact hW

theorem tempStage_inert (reg : Registry) (st : SimState) (m : Material) (x y : ℕ) (mIdx : ℤ)
    (hw : allInert reg st.w.mat = true) (hm : inert reg mIdx = true)
    (hvals : inertVals reg = true) :
    allInert reg (tempStage reg st m x y mIdx).w.mat = true := by
  simp only [inertVals, Bool.and_eq_true] at hvals
  obtain ⟨⟨⟨⟨h0, he⟩, hsteam⟩, hstone⟩, hfire⟩ := hvals
  have hv2 : inert reg (if truthyIdx (getMatIndex reg "STEAM")
      then toInt32 (getMatIndex reg "STEAM") else mIdx) = true := by
    split
    · exact hsteam
    · exact hm
  simp only [tempStage]
  rw [ssW]
  exact allInert_step reg (allInert_step reg (allInert_step reg
    (by rw [wMkMat]; exact hw) hv2) hstone) hfire

theorem cellStepCore_inert (reg : Registry) (tt : Bool) (st : SimState) (x y : ℕ)
    (hvals : inertVals reg = true) (hw : allInert reg st.w.mat = true) :
    allInert reg (cellStepCore reg tt st x y).1.w.mat = true := by
  have h0 : inert reg 0 = true := by
    simp only [inertVals, Bool.and_eq_true] at hvals; exact hvals.1.1.1.1
  have he : inert reg (toInt32 (getMatIndex reg "EMPTY")) = true := by
    simp only [inertVals, Bool.and_eq_true] at hvals; exact hvals.1.1.1.2
  have hm : inert reg (st.w.mat.getD (gidx st.w.gridW x y) 0) = true :=
    getD_inert reg _ _ hw h0
  simp only [cellStepCore]
  split
  · rw [prodFst]; exact hw
  · split
    · rw [prodFst]; exact hw
    · next m heq =>
      split
      · rw [prodFst]; exact hw
      · split
        · exact moveStages_inert reg st x y _ m hw hm he
        · split
          · rw [prodFst]
            exact tempStage_inert reg _ m x y _
              (moveStages_inert reg st x y _ m hw hm he) hm hvals
          · rw [prodFst]
            exact moveStages_inert reg st x y _ m hw hm he

theorem foldl_inv {A B : Type} (P : B → Prop) (f : B → A → B) (l : List A) (b : B)
    (hb : P b) (hf : ∀ c a, P c → P (f c a)) : P (l.foldl f b) := by
  induction l generalizing b with
  | nil => exact hb
  | cons a l ih => exact ih _ (hf b a hb)

theorem pass1_inert (reg : Registry) (tt : Bool) (st : SimState)
    (hvals : inertVals reg = true) (hw : allInert reg st.w.mat = true) :
    allInert reg (pass1 reg tt st).w.mat = true := by
  simp only [pass1]
  apply foldl_inv (fun s : SimState => allInert reg s.w.mat = true) _ _ _ hw
  intro c k hc
  apply foldl_inv (fun s : SimState => allInert reg s.w.mat = true) _ _ _ hc
  intro c2 x2 hc2
  exact cellStepCore_inert reg tt c2 _ _ hvals hc2

theorem cellReact_inert_id (reg : Registry) (mr : ℕ → ℚ) (st : SimState) (x y : ℕ)
    (h0 : inert reg 0 = true) (hw : allInert reg st.w.mat = true) :
    cellReact reg mr st x y = st := by
  have hm : inert reg (st.w.mat.getD (gidx st.w.gridW x y) 0) = true :=
    getD_inert reg _ _ hw h0
  simp only [cellReact]
  split
  · rfl
  · next m heq =>
    simp only [inert, heq, Bool.not_eq_eq_eq_not, Bool.not_true, Bool.or_eq_false_iff,
      beq_eq_false_iff_ne, ne_eq] at hm
    rw [if_neg hm.2, if_neg hm.1.2, if_neg hm.1.1]

theorem foldl_id {A B : Type} (f : B → A → B) (l : List A) (b : B)
    (h : ∀ a, f b a = b) : l.foldl f b = b := by
  induction l with
  | nil => rfl
  | cons a l ih => rw [List.foldl_cons, h a]; exact ih

theorem pass2_inert_id (reg : Registry) (mr : ℕ → ℚ) (st : SimState)
    (h0 : inert reg 0 = true) (hw : allInert reg st.w.mat = true) :
    pass2 reg mr st = st := by
  simp only [pass2]
  apply foldl_id
  intro yy
  apply foldl_id
  intro xx
  exact cellReact_inert_id reg mr st xx yy h0 hw


/-! ## Claim theorems -/

/-- C1: refuted as stated — the code is buggy.  `allocateWorld` fills
`materialIndex` with `getMatIndex('EMPTY') || -1`; since the empty
material sits at registry index 0 (a falsy value), every cell is filled
with `-1`, which is *not* the empty material's index and is not a valid
registry index at all (`getMatByIndex` yields `undefined` on it).  The
code's own comment says "Fill with EMPTY (index 0)". -/
theorem C1_allocateWorld_fills_invalid_index (w h : ℕ) :
    (allocateWorld defaultRegistry w h).mat = List.replicate (w * h) (-1) ∧
    getMatIndex defaultRegistry "EMPTY" = some 0 ∧
    getMatByIndex defaultRegistry (-1) = none := by
  refine ⟨rfl, by decide, by decide⟩

/-- C2, counterexample: with the same seed (0) and the same initial grid
`WALL|OIL|FIRE`, two runs of one tick differ when the external
`Math.random()` stream differs, because the pass-2 oil-ignition check
samples `Math.random()`, not the seeded source. -/
theorem C2_determinism_counterexample :
    (simTick specRegistry false (fun _ => 0) ⟨c2World, 0, 0⟩).w.mat ≠
    (simTick specRegistry false (fun _ => 1) ⟨c2World, 0, 0⟩).w.mat := by
  with_unfolding_all decide

/-- C2: the movement pass (pass 1) never consults `Math.random()`, and
pass 2 draws from it only when processing an ACID, OIL or SEED cell.
Hence, as the amended claim states, on a world all of whose cells are
inert (no ACID, OIL or SEED present) — over any registry whose writable
indices (EMPTY, STEAM, STONE, FIRE and the Int32 default 0) are
themselves inert, as in the spec registry — `N` ticks from the same seed
produce literally the same simulation state for any two `Math.random()`
streams `f` and `g`: the run is determined by the seeded rng alone. -/
theorem C2_determinism_without_reactive_materials (reg : Registry) (tt : Bool)
    (f g : ℕ → ℚ) (n : ℕ) (st : SimState)
    (hvals : inertVals reg = true) (hw : allInert reg st.w.mat = true) :
    simTickN reg tt f n st = simTickN reg tt g n st := by
  have h0 : inert reg 0 = true := by
    simp only [inertVals, Bool.and_eq_true] at hvals; exact hvals.1.1.1.1
  induction n generalizing st with
  | zero => rfl
  | succ k ih =>
    show simTickN reg tt f k (simTick reg tt f st) = simTickN reg tt g k (simTick reg tt g st)
    have hp : allInert reg (pass1 reg tt st).w.mat = true := pass1_inert reg tt st hvals hw
    have hfe : simTick reg tt f st = pass1 reg tt st := by
      unfold simTick; exact pass2_inert_id reg f _ h0 hp
    have hge : simTick reg tt g st = pass1 reg tt st := by
      unfold simTick; exact pass2_inert_id reg g _ h0 hp
    rw [hfe, hge]
    exact ih _ hp

/-- Witness for C2 at a concrete input: a 2×1 SAND-over-WATER world over
the spec registry, ticked once with temperature on, under the constant-0
and the constant-1/2 `Math.random()` streams. -/
theorem C2_determinism_without_reactive_materials_witness :
    inertVals specRegistry = true ∧
    allInert specRegistry (SimState.mk c2iWorld 0 0).w.mat = true ∧
    simTickN specRegistry true (fun _ => 0) 1 (SimState.mk c2iWorld 0 0) =
      simTickN specRegistry true (fun _ => (1 : ℚ)/2) 1 (SimState.mk c2iWorld 0 0) :=
  ⟨by with_unfolding_all decide, by with_unfolding_all decide,
   C2_determinism_without_reactive_materials specRegistry true
     (fun _ => 0) (fun _ => (1 : ℚ)/2) 1 (SimState.mk c2iWorld 0 0)
     (by with_unfolding_all decide) (by with_unfolding_all decide)⟩

/-- C3, counterexample: the "downward move" is not a swap.  On the 1×2
grid sand-over-water, one movement-only tick (no reactive materials
present) overwrites the water with the sand and empties the source cell,
so the total count of water cells drops from 1 to 0. -/
theorem C3_conservation_counterexample :
    c3World.mat.count 2 = 1 ∧
    (simTick specRegistry false (fun _ => 0) ⟨c3World, 0, 0⟩).w.mat.count 2 = 0 := by
  with_unfolding_all decide

/-- C4, counterexample: a `setMatAt` write with an unregistered id is not
a no-op — the `getMatIndex(id) || getMatIndex('EMPTY')` fallback treats
the "not found" result as the empty material, overwriting the sand cell
with index 0. -/
theorem C4_unregistered_write_counterexample :
    getMatIndex specRegistry "PLUTONIUM" = none ∧
    c4World.mat = [1] ∧
    (setMatAt specRegistry c4World 0 0 "PLUTONIUM").mat = [0] := by decide

/-- C5, counterexample: on the 2×1 all-empty grid with temperatures
`[0, 1]`, one temperature-enabled tick sets cell 0 to `1/20`, whereas the
claimed update (mean over neighbours only, the cell itself excluded)
would give `1/10`: the code's running mean starts from `count=1, sum=t`,
so the cell's own temperature *is* part of the mean. -/
theorem C5_neighbor_mean_counterexample :
    (simTick specRegistry true (fun _ => 0) ⟨c5World, 0, 0⟩).w.temp.getD 0 0 = 1/20 ∧
    specTempUpdate 0 [1] = 1/10 ∧ (1/20 : ℚ) ≠ (1/10 : ℚ) := by
  with_unfolding_all decide

/-- C6: refuted as stated — consequence of the C1 allocation bug.  On the
freshly allocated 10×10 grid every other cell holds `-1`, for which
`getMatByIndex` returns `undefined`, so the `belowMat && !belowMat.solid`
fall check is false: after 9 ticks the sand is still at (5,0) and the
bottom cell (5,9) still holds `-1` instead of the sand. -/
theorem C6_sand_stuck_on_fresh_grid :
    c6World.mat.getD (gidx 10 5 0) 0 = 1 ∧
    (simTickN defaultRegistry false (fun _ => 0) 9 ⟨c6World, 0, 0⟩).w.mat.getD (gidx 10 5 0) 0 = 1 ∧
    (simTickN defaultRegistry false (fun _ => 0) 9 ⟨c6World, 0, 0⟩).w.mat.getD (gidx 10 5 9) 0 = -1 := by
  with_unfolding_all decide

/-- C4, amended: for an unregistered material id, `setMatAt` overwrites
the in-bounds target cell with the empty-material index (the JS `||`
fallback), rather than leaving it unchanged. -/
theorem C4_unregistered_write_clears_cell (reg : Registry) (w : World) (x y : ℕ) (id : String)
    (hx : x < w.gridW) (hy : y < w.gridH) (hid : getMatIndex reg id = none) :
    (setMatAt reg w x y id).mat =
      w.mat.set (gidx w.gridW x y) (toInt32 (getMatIndex reg "EMPTY")) := by
  rw [setMatAt, if_pos ⟨hx, hy⟩, markChunk_mat]
  rw [hid]
  rfl

/-- Witness for C4's amended theorem at a concrete input: the id `BOGUS`
is unregistered, and writing it to (0,0) of the 1×1 sand world stores the
empty index. -/
theorem C4_unregistered_write_clears_cell_witness :
    getMatIndex specRegistry "BOGUS" = none ∧
    (setMatAt specRegistry c4World 0 0 "BOGUS").mat =
      c4World.mat.set (gidx c4World.gridW 0 0) (toInt32 (getMatIndex specRegistry "EMPTY")) :=
  ⟨by decide,
   C4_unregistered_write_clears_cell specRegistry c4World 0 0 "BOGUS"
     (by decide) (by decide) (by decide)⟩

/-- C3, amended: the downward move of a granular (sand) cell whose cell
below is in-bounds and holds a defined non-solid material fires the
`continue` and rewrites `materialIndex` by storing the sand index into the
cell below and the empty index 0 into the source — an overwrite, not a
swap in general.  When the cell below was empty (index 0) this coincides
with a swap of the two cells' contents, and then every material's cell
count is preserved. -/
theorem C3_granular_fall_overwrites_below (tt : Bool) (st : SimState) (x y : ℕ) (bm : Material)
    (hx : x < st.w.gridW) (hy : y + 1 < st.w.gridH)
    (hlen : st.w.mat.length = st.w.gridW * st.w.gridH)
    (hm : st.w.mat.getD (gidx st.w.gridW x y) 0 = 1)
    (hb : getMatByIndex specRegistry (st.w.mat.getD (gidx st.w.gridW x (y + 1)) 0) = some bm)
    (hbs : bm.solid = false) :
    (cellStepCore specRegistry tt st x y).2 = true ∧
    (cellStepCore specRegistry tt st x y).1.w.mat =
      (st.w.mat.set (gidx st.w.gridW x (y + 1)) 1).set (gidx st.w.gridW x y) 0 ∧
    (st.w.mat.getD (gidx st.w.gridW x (y + 1)) 0 = 0 →
      ∀ v : ℤ, ((cellStepCore specRegistry tt st x y).1.w.mat).count v = st.w.mat.count v) := by
  have hns : nonSolidAt specRegistry st.w (gidx st.w.gridW x (y + 1)) = true := by
    unfold nonSolidAt
    rw [hb]
    simp [hbs]
  have hsand : sandStage specRegistry st x y 1 =
      ({ st with w := moveCell specRegistry st.w x y x (y + 1) 1 }, true) := by
    simp only [sandStage]
    rw [if_pos hy, if_pos hns]
  have hmv : moveStages specRegistry st x y 1 ⟨"SAND", false, true, false, false, false, none⟩ =
      ({ st with w := moveCell specRegistry st.w x y x (y + 1) 1 }, true) := by
    simp only [moveStages]
    rw [if_pos (Or.inr trivial : String.startsWith "SAND" "SAND" = true ∨ True)]
    rw [hsand, contOr_of_true _ _ (prodSnd _ _)]
  have hcell : cellStepCore specRegistry tt st x y =
      ({ st with w := moveCell specRegistry st.w x y x (y + 1) 1 }, true) := by
    simp only [cellStepCore]
    rw [hm]
    rw [if_neg (by decide : ¬ ((1:ℤ) < 0))]
    split
    · next heq => exact absurd heq (by decide)
    · next m heq =>
      have hM : m = ⟨"SAND", false, true, false, false, false, none⟩ := by
        have h2 : some m = some (⟨"SAND", false, true, false, false, false, none⟩ : Material) :=
          heq.symm.trans (by decide)
        exact Option.some_inj.mp h2
      subst hM
      rw [if_neg (by decide : ¬ (("SAND":String) = "WALL" ∨ ("SAND":String) = "ERASER"))]
      rw [hmv, if_pos (prodSnd _ _)]
  have hmat : (cellStepCore specRegistry tt st x y).1.w.mat =
      (st.w.mat.set (gidx st.w.gridW x (y + 1)) 1).set (gidx st.w.gridW x y) 0 := by
    rw [hcell, prodFst, ssW, moveCell_mat]
    rfl
  refine ⟨by rw [hcell, prodSnd], hmat, ?_⟩
  intro h0 v
  rw [hmat]
  have hyH : y < st.w.gridH := by omega
  have hi : gidx st.w.gridW x y < st.w.mat.length := by
    rw [hlen]; exact gidx_lt _ _ _ _ hx hyH
  have hj : gidx st.w.gridW x (y + 1) < st.w.mat.length := by
    rw [hlen]; exact gidx_lt _ _ _ _ hx hy
  have hij : gidx st.w.gridW x y ≠ gidx st.w.gridW x (y + 1) := by
    have hW : 0 < st.w.gridW := by omega
    have e1 : (y + 1) * st.w.gridW = y * st.w.gridW + st.w.gridW := by ring
    unfold gidx
    omega
  have := count_set_swap st.w.mat (gidx st.w.gridW x y) (gidx st.w.gridW x (y + 1)) hi hj hij v
  rw [hm, h0] at this
  exact this

/-- Witness for C3's amended theorem: on the 1×2 sand-over-empty grid the
fall step fires, overwrites as stated, and (the below cell being empty)
preserves every material count. -/
theorem C3_granular_fall_overwrites_below_witness :
    (cellStepCore specRegistry false ⟨c3bWorld, 0, 0⟩ 0 0).2 = true ∧
    (cellStepCore specRegistry false ⟨c3bWorld, 0, 0⟩ 0 0).1.w.mat =
      (c3bWorld.mat.set (gidx c3bWorld.gridW 0 1) 1).set (gidx c3bWorld.gridW 0 0) 0 ∧
    (c3bWorld.mat.getD (gidx c3bWorld.gridW 0 1) 0 = 0 →
      ∀ v : ℤ, ((cellStepCore specRegistry false ⟨c3bWorld, 0, 0⟩ 0 0).1.w.mat).count v =
        c3bWorld.mat.count v) :=
  C3_granular_fall_overwrites_below false ⟨c3bWorld, 0, 0⟩ 0 0
    ⟨"EMPTY", false, false, false, false, false, none⟩
    (by decide) (by decide) (by decide) (by decide) (by decide) (by decide)

/-- C5, amended: the per-tick temperature update moves the cell a 0.1
fraction toward the mean of the cell's OWN temperature together with its
up-to-4 existing orthogonal neighbours (the spec's neighbour-only mean is
wrong: the running sum starts at `count=1, sum=t`).  For a cell holding a
non-moving, non-transitioning material (stone, registry index 4) the tick
stores exactly this value and leaves `materialIndex` unchanged. -/
theorem C5_temperature_mean_includes_self (st : SimState) (x y : ℕ)
    (hm : st.w.mat.getD (gidx st.w.gridW x y) 0 = 4) :
    tempDiffuse st.w.temp st.w.gridW st.w.gridH x y =
      st.w.temp.getD (gidx st.w.gridW x y) 0 +
        ((st.w.temp.getD (gidx st.w.gridW x y) 0 +
            ((neighborCoords st.w.gridW st.w.gridH x y).map
              (fun p => st.w.temp.getD (gidx st.w.gridW p.1 p.2) 0)).sum) /
            (1 + ((neighborCoords st.w.gridW st.w.gridH x y).length : ℚ)) -
          st.w.temp.getD (gidx st.w.gridW x y) 0) * (1/10) ∧
    (cellStepCore specRegistry true st x y).1.w.temp =
      st.w.temp.set (gidx st.w.gridW x y) (tempDiffuse st.w.temp st.w.gridW st.w.gridH x y) ∧
    (cellStepCore specRegistry true st x y).1.w.mat = st.w.mat := by
  refine ⟨tempDiffuse_eq_mean _ _ _ _ _, ?_⟩
  have hmv : moveStages specRegistry st x y 4 ⟨"STONE", true, false, false, false, false, none⟩ =
      (st, false) := by
    simp only [moveStages, contOr]
    rw [if_neg (by with_unfolding_all decide :
      ¬ (String.startsWith "STONE" "SAND" = true ∨ ("STONE":String) = "SAND"))]
    simp
  have htmp : tempStage specRegistry st ⟨"STONE", true, false, false, false, false, none⟩ x y 4 =
      { st with w := { st.w with
          temp := st.w.temp.set (gidx st.w.gridW x y) (tempDiffuse st.w.temp st.w.gridW st.w.gridH x y) } } := by
    simp only [tempStage]
    simp
  have hcell : cellStepCore specRegistry true st x y =
      (tempStage specRegistry st ⟨"STONE", true, false, false, false, false, none⟩ x y 4, false) := by
    simp only [cellStepCore]
    rw [hm]
    rw [if_neg (by decide : ¬ ((4:ℤ) < 0))]
    split
    · next heq => exact absurd heq (by decide)
    · next m heq =>
      have hM : m = ⟨"STONE", true, false, false, false, false, none⟩ := by
        have h2 : some m = some (⟨"STONE", true, false, false, false, false, none⟩ : Material) :=
          heq.symm.trans (by decide)
        exact Option.some_inj.mp h2
      subst hM
      rw [if_neg (by decide : ¬ (("STONE":String) = "WALL" ∨ ("STONE":String) = "ERASER"))]
      rw [hmv]
      rw [if_neg (by simp : ¬ ((st, false).2 = true))]
      rw [if_pos (trivial : True), prodFst]
  constructor
  · rw [hcell, prodFst, htmp, ssW]
  · rw [hcell, prodFst, htmp, ssW]

/-- Witness for C5's amended theorem on a 2×1 stone grid with
temperatures 7 and 9: cell (0,0) has the single neighbour (1,0), and the
update stores `7 + ((7+9)/2 - 7)/10`. -/
theorem C5_temperature_mean_includes_self_witness :
    (⟨c5bWorld, 0, 0⟩ : SimState).w.mat.getD (gidx (⟨c5bWorld, 0, 0⟩ : SimState).w.gridW 0 0) 0 = 4 ∧
    (tempDiffuse (⟨c5bWorld, 0, 0⟩ : SimState).w.temp (⟨c5bWorld, 0, 0⟩ : SimState).w.gridW
        (⟨c5bWorld, 0, 0⟩ : SimState).w.gridH 0 0 =
      (⟨c5bWorld, 0, 0⟩ : SimState).w.temp.getD (gidx (⟨c5bWorld, 0, 0⟩ : SimState).w.gridW 0 0) 0 +
        (((⟨c5bWorld, 0, 0⟩ : SimState).w.temp.getD (gidx (⟨c5bWorld, 0, 0⟩ : SimState).w.gridW 0 0) 0 +
            ((neighborCoords (⟨c5bWorld, 0, 0⟩ : SimState).w.gridW (⟨c5bWorld, 0, 0⟩ : SimState).w.gridH 0 0).map
              (fun p => (⟨c5bWorld, 0, 0⟩ : SimState).w.temp.getD (gidx (⟨c5bWorld, 0, 0⟩ : SimState).w.gridW p.1 p.2) 0)).sum) /
            (1 + ((neighborCoords (⟨c5bWorld, 0, 0⟩ : SimState).w.gridW (⟨c5bWorld, 0, 0⟩ : SimState).w.gridH 0 0).length : ℚ)) -
          (⟨c5bWorld, 0, 0⟩ : SimState).w.temp.getD (gidx (⟨c5bWorld, 0, 0⟩ : SimState).w.gridW 0 0) 0) * (1/10) ∧
    (cellStepCore specRegistry true ⟨c5bWorld, 0, 0⟩ 0 0).1.w.temp =
      (⟨c5bWorld, 0, 0⟩ : SimState).w.temp.set (gidx (⟨c5bWorld, 0, 0⟩ : SimState).w.gridW 0 0)
        (tempDiffuse (⟨c5bWorld, 0, 0⟩ : SimState).w.temp (⟨c5bWorld, 0, 0⟩ : SimState).w.gridW
          (⟨c5bWorld, 0, 0⟩ : SimState).w.gridH 0 0) ∧
    (cellStepCore specRegistry true ⟨c5bWorld, 0, 0⟩ 0 0).1.w.mat = (⟨c5bWorld, 0, 0⟩ : SimState).w.mat) :=
  ⟨by decide, C5_temperature_mean_includes_self ⟨c5bWorld, 0, 0⟩ 0 0 (by decide)⟩

/-- C7, counterexample: no ShapeMismatch check exists.  With prior world
the 1×1 sand grid: a snapshot declaring 2×1 with a material array of
length 1 is accepted outright (no error), and a snapshot with a material
array of length 3 throws a RangeError from `TypedArray.set` — in both
cases the prior world has already been replaced. -/
theorem C7_restore_counterexample :
    ((loadWorld specRegistry c4World ⟨2, 1, some [9], none⟩).2 = none ∧
     (loadWorld specRegistry c4World ⟨2, 1, some [9], none⟩).1.mat ≠ c4World.mat) ∧
    ((loadWorld specRegistry c4World ⟨2, 1, some [9, 9, 9], none⟩).2 = some .rangeError ∧
     (loadWorld specRegistry c4World ⟨2, 1, some [9, 9, 9], none⟩).1.mat ≠ c4World.mat) := by
  with_unfolding_all decide

/-- C7, amended: restore performs no length validation.  For any truthy
`w`, `h`, `mat`: a material array no longer than `w*h` is accepted in
full, the world being a fresh allocation whose `materialIndex` is the
given array padded with the allocation fill and whose temperatures are
zeroed (the `parsed.temp || new Float32Array(..)` default, not ambient);
a longer material array aborts with a RangeError after the prior world
has already been replaced by the fresh allocation. -/
theorem C7_restore_without_shape_check (reg : Registry) (prev : World) (w h : ℕ) (mat : List ℤ)
    (hw : w ≠ 0) (hh : h ≠ 0) :
    (mat.length ≤ w * h →
      (loadWorld reg prev ⟨w, h, some mat, none⟩).2 = none ∧
      (loadWorld reg prev ⟨w, h, some mat, none⟩).1.gridW = w ∧
      (loadWorld reg prev ⟨w, h, some mat, none⟩).1.gridH = h ∧
      (loadWorld reg prev ⟨w, h, some mat, none⟩).1.mat =
        mat ++ List.replicate (w * h - mat.length) (allocFill reg) ∧
      (loadWorld reg prev ⟨w, h, some mat, none⟩).1.temp = List.replicate (w * h) 0) ∧
    (w * h < mat.length →
      (loadWorld reg prev ⟨w, h, some mat, none⟩).1 = allocateWorld reg w h ∧
      (loadWorld reg prev ⟨w, h, some mat, none⟩).2 = some .rangeError) := by
  have hguard : (⟨w, h, some mat, none⟩ : Snapshot).w ≠ 0 ∧ (⟨w, h, some mat, none⟩ : Snapshot).h ≠ 0 ∧
      (⟨w, h, some mat, none⟩ : Snapshot).mat.isSome := ⟨hw, hh, rfl⟩
  constructor
  · intro hm
    have h1 : typedSet (allocateWorld reg w h).mat ((⟨w, h, some mat, none⟩ : Snapshot).mat.getD []) =
        some (mat ++ List.replicate (w * h - mat.length) (allocFill reg)) := by
      simp only [typedSet, allocateWorld]
      rw [if_pos]
      · rw [List.drop_replicate]
        rfl
      · simpa using hm
    have h2 : typedSet (allocateWorld reg w h).temp (none.getD (List.replicate (w * h) (0:ℚ))) =
        some (List.replicate (w * h) 0) := by
      show typedSet (List.replicate (w * h) (20:ℚ)) (List.replicate (w * h) (0:ℚ)) =
        some (List.replicate (w * h) 0)
      simp only [typedSet]
      rw [if_pos (by simp)]
      simp [List.drop_replicate]
    simp only [loadWorld]
    rw [if_pos hguard]
    rw [h1]
    dsimp only
    rw [h2]
    exact ⟨rfl, rfl, rfl, rfl, rfl⟩
  · intro hm
    have h1 : typedSet (allocateWorld reg w h).mat ((⟨w, h, some mat, none⟩ : Snapshot).mat.getD []) =
        none := by
      simp only [typedSet, allocateWorld]
      rw [if_neg]
      simpa using hm
    simp only [loadWorld]
    rw [if_pos hguard]
    rw [h1]
    exact ⟨rfl, rfl⟩

/-- Witness for C7's amended theorem: restoring `{w:2, h:1, mat:[9,9]}`
over the 1×1 sand world succeeds and installs the snapshot. -/
theorem C7_restore_without_shape_check_witness :
    ([9, 9] : List ℤ).length ≤ 2 * 1 ∧
    ((loadWorld specRegistry c4World ⟨2, 1, some [9, 9], none⟩).2 = none ∧
     (loadWorld specRegistry c4World ⟨2, 1, some [9, 9], none⟩).1.gridW = 2 ∧
     (loadWorld specRegistry c4World ⟨2, 1, some [9, 9], none⟩).1.gridH = 1 ∧
     (loadWorld specRegistry c4World ⟨2, 1, some [9, 9], none⟩).1.mat =
       [9, 9] ++ List.replicate (2 * 1 - ([9, 9] : List ℤ).length) (allocFill specRegistry) ∧
     (loadWorld specRegistry c4World ⟨2, 1, some [9, 9], none⟩).1.temp = List.replicate (2 * 1) 0) :=
  ⟨by decide,
   (C7_restore_without_shape_check specRegistry c4World 2 1 [9, 9] (by decide) (by decide)).1
     (by decide)⟩

/-- C9: for every brush centre (any integers, including corners and
points outside the grid), every radius (including radii larger than the
grid), every current material and every sequence of softness-check
outcomes, `drawBrushAt` writes only to cells with coordinates inside
`[0,gridW) × [0,gridH)` (the write log records every cell stored to), and
the material and temperature arrays keep their length — no out-of-range
entry exists to be corrupted, and the function is total (never throws). -/
theorem C9_brush_writes_in_bounds (reg : Registry) (id : String) (coin : ℕ → Bool)
    (w : World) (gx gy : ℤ) (r : ℕ) :
    (∀ p ∈ (drawBrushAt reg id coin w gx gy r).log,
        0 ≤ p.1 ∧ p.1 < w.gridW ∧ 0 ≤ p.2 ∧ p.2 < w.gridH) ∧
    (drawBrushAt reg id coin w gx gy r).w.gridW = w.gridW ∧
    (drawBrushAt reg id coin w gx gy r).w.gridH = w.gridH ∧
    (drawBrushAt reg id coin w gx gy r).w.mat.length = w.mat.length ∧
    (drawBrushAt reg id coin w gx gy r).w.temp.length = w.temp.length := by
  have main : ∀ (ds : List ℤ) (acc : BrushAcc),
      acc.w.gridW = w.gridW → acc.w.gridH = w.gridH →
      acc.w.mat.length = w.mat.length → acc.w.temp.length = w.temp.length →
      (∀ p ∈ acc.log, 0 ≤ p.1 ∧ p.1 < w.gridW ∧ 0 ≤ p.2 ∧ p.2 < w.gridH) →
      ∀ (inner : List ℤ),
      (let res := ds.foldl
          (fun a dy => inner.foldl (fun a2 dx => brushVisit reg id coin gx gy r a2 (dx, dy)) a) acc
       res.w.gridW = w.gridW ∧ res.w.gridH = w.gridH ∧
       res.w.mat.length = w.mat.length ∧ res.w.temp.length = w.temp.length ∧
       ∀ p ∈ res.log, 0 ≤ p.1 ∧ p.1 < w.gridW ∧ 0 ≤ p.2 ∧ p.2 < w.gridH) := by
    intro ds
    induction ds with
    | nil => intro acc a1 a2 a3 a4 a5 inner; exact ⟨a1, a2, a3, a4, a5⟩
    | cons dy tl ih =>
      intro acc a1 a2 a3 a4 a5 inner
      simp only [List.foldl_cons]
      have hinner : ∀ (il : List ℤ) (b : BrushAcc),
          b.w.gridW = w.gridW → b.w.gridH = w.gridH →
          b.w.mat.length = w.mat.length → b.w.temp.length = w.temp.length →
          (∀ p ∈ b.log, 0 ≤ p.1 ∧ p.1 < w.gridW ∧ 0 ≤ p.2 ∧ p.2 < w.gridH) →
          (let rb := il.foldl (fun a2 dx => brushVisit reg id coin gx gy r a2 (dx, dy)) b
           rb.w.gridW = w.gridW ∧ rb.w.gridH = w.gridH ∧
           rb.w.mat.length = w.mat.length ∧ rb.w.temp.length = w.temp.length ∧
           ∀ p ∈ rb.log, 0 ≤ p.1 ∧ p.1 < w.gridW ∧ 0 ≤ p.2 ∧ p.2 < w.gridH) := by
        intro il
        induction il with
        | nil => intro b b1 b2 b3 b4 b5; exact ⟨b1, b2, b3, b4, b5⟩
        | cons dx tl2 ih2 =>
          intro b b1 b2 b3 b4 b5
          simp only [List.foldl_cons]
          have step := brushVisit_preserves reg id coin gx gy r w (dx, dy) b b1 b2 b3 b4 b5
          exact ih2 _ step.1 step.2.1 step.2.2.1 step.2.2.2.1 step.2.2.2.2
      have hrow := hinner inner acc a1 a2 a3 a4 a5
      exact ih _ hrow.1 hrow.2.1 hrow.2.2.1 hrow.2.2.2.1 hrow.2.2.2.2 inner
  have res := main (offsets r) ⟨w, 0, []⟩ rfl rfl rfl rfl (by intro p hp; cases hp) (offsets r)
  exact ⟨res.2.2.2.2, res.1, res.2.1, res.2.2.1, res.2.2.2.1⟩

/-- Witness for C9 at a concrete input: painting sand at centre (0,0)
with radius 3 on a 2×2 world (radius larger than the grid) writes (0,0), which is in bounds. -/
theorem C9_brush_writes_in_bounds_witness :
    ((0, 0) : ℤ × ℤ) ∈
      (drawBrushAt specRegistry "SAND" (fun _ => true) (allocateWorld specRegistry 2 2) 0 0 3).log ∧
    (0 ≤ ((0, 0) : ℤ × ℤ).1 ∧ ((0, 0) : ℤ × ℤ).1 < (allocateWorld specRegistry 2 2).gridW ∧
     0 ≤ ((0, 0) : ℤ × ℤ).2 ∧ ((0, 0) : ℤ × ℤ).2 < (allocateWorld specRegistry 2 2).gridH) :=
  ⟨by with_unfolding_all decide,
   (C9_brush_writes_in_bounds specRegistry "SAND" (fun _ => true)
       (allocateWorld specRegistry 2 2) 0 0 3).1 (0, 0)
     (by with_unfolding_all decide)⟩

/-- C8: dirty-tracking correctness.  After a fresh `allocateWorld(w,h)`
every chunk flag is set and the renderer's first dirty-chunk collection
reports every chunk (in visit order) while clearing the flags; an
immediately repeated collection reports nothing; and after a single
in-bounds cell write through `setMatAt`, exactly the chunk containing
that cell is reported, exactly once. -/
theorem C8_dirty_tracking_correct (reg : Registry) (w h x y : ℕ) (id : String)
    (hw : 0 < w) (hh : 0 < h) (hx : x < w) (hy : y < h) :
    (takeDirtyChunks (allocateWorld reg w h)).1 =
      chunkOrder (allocateWorld reg w h).chunksX (allocateWorld reg w h).chunksY ∧
    (takeDirtyChunks (takeDirtyChunks (allocateWorld reg w h)).2).1 = [] ∧
    (takeDirtyChunks (setMatAt reg (takeDirtyChunks (allocateWorld reg w h)).2 x y id)).1 =
      [(x / chunkSize, y / chunkSize)] := by
  have hfd : (allocateWorld reg w h).dirty =
      List.replicate ((allocateWorld reg w h).chunksX * (allocateWorld reg w h).chunksY) true := rfl
  have hflds := takeDirty_fields (allocateWorld reg w h)
  have hflag : ∀ c, (takeDirtyChunks (allocateWorld reg w h)).2.dirty.getD c false = false :=
    fun c => takeDirty_flag_false _ c (by rw [hfd]; simp)
  refine ⟨takeDirty_allTrue _ hfd, takeDirty_clean _ hflag, ?_⟩
  -- part (c)
  have hgw : (takeDirtyChunks (allocateWorld reg w h)).2.gridW = w := by
    rw [hflds.1]; rfl
  have hgh : (takeDirtyChunks (allocateWorld reg w h)).2.gridH = h := by
    rw [hflds.2.1]; rfl
  have hcx : (takeDirtyChunks (allocateWorld reg w h)).2.chunksX =
      max 1 ((w + (chunkSize - 1)) / chunkSize) := by
    rw [hflds.2.2.1]; rfl
  have hcy : (takeDirtyChunks (allocateWorld reg w h)).2.chunksY =
      max 1 ((h + (chunkSize - 1)) / chunkSize) := by
    rw [hflds.2.2.2.1]; rfl
  have hdl : (takeDirtyChunks (allocateWorld reg w h)).2.dirty.length =
      (takeDirtyChunks (allocateWorld reg w h)).2.chunksX *
        (takeDirtyChunks (allocateWorld reg w h)).2.chunksY := by
    rw [hflds.2.2.2.2, hfd, hflds.2.2.1, hflds.2.2.2.1]
    simp
  have hxc : x / chunkSize < (takeDirtyChunks (allocateWorld reg w h)).2.chunksX := by
    rw [hcx]; exact div_lt_chunks w x hx
  have hyc : y / chunkSize < (takeDirtyChunks (allocateWorld reg w h)).2.chunksY := by
    rw [hcy]; exact div_lt_chunks h y hy
  have hset : setMatAt reg (takeDirtyChunks (allocateWorld reg w h)).2 x y id =
      markChunkDirtyForCell
        { (takeDirtyChunks (allocateWorld reg w h)).2 with
            mat := (takeDirtyChunks (allocateWorld reg w h)).2.mat.set
              (gidx (takeDirtyChunks (allocateWorld reg w h)).2.gridW x y)
              (jsOrIdx (getMatIndex reg id) (getMatIndex reg "EMPTY")) } x y := by
    simp only [setMatAt]
    rw [if_pos ⟨by rw [hgw]; exact hx, by rw [hgh]; exact hy⟩]
  have hmark : setMatAt reg (takeDirtyChunks (allocateWorld reg w h)).2 x y id =
      { (takeDirtyChunks (allocateWorld reg w h)).2 with
          mat := (takeDirtyChunks (allocateWorld reg w h)).2.mat.set
            (gidx (takeDirtyChunks (allocateWorld reg w h)).2.gridW x y)
            (jsOrIdx (getMatIndex reg id) (getMatIndex reg "EMPTY")),
          dirty := (takeDirtyChunks (allocateWorld reg w h)).2.dirty.set
            ((y / chunkSize) * (takeDirtyChunks (allocateWorld reg w h)).2.chunksX + x / chunkSize)
            true } := by
    rw [hset]
    simp only [markChunkDirtyForCell]
    rw [if_pos ⟨hxc, hyc⟩]
  apply takeDirty_single _ _ _ (by rw [hmark]; exact hxc) (by rw [hmark]; exact hyc)
  intro c
  rw [hmark]
  show ((takeDirtyChunks (allocateWorld reg w h)).2.dirty.set
      ((y / chunkSize) * (takeDirtyChunks (allocateWorld reg w h)).2.chunksX + x / chunkSize)
      true).getD c false = _
  by_cases hc : c =
      (y / chunkSize) * (takeDirtyChunks (allocateWorld reg w h)).2.chunksX + x / chunkSize
  · rw [hc]
    rw [getD_set_self]
    · simp
    · rw [hdl]
      exact gidx_lt _ _ _ _ hxc hyc
  · rw [getD_set_ne _ _ _ _ _ (fun he => hc he.symm), hflag]
    simp [hc]

/-- Witness for C8 at a concrete input: a 20×18 world (2×2 chunks of
size 16) with a write at (17,3), which lies in chunk (1,0). -/
theorem C8_dirty_tracking_correct_witness :
    (takeDirtyChunks (allocateWorld specRegistry 20 18)).1 =
      chunkOrder (allocateWorld specRegistry 20 18).chunksX (allocateWorld specRegistry 20 18).chunksY ∧
    (takeDirtyChunks (takeDirtyChunks (allocateWorld specRegistry 20 18)).2).1 = [] ∧
    (takeDirtyChunks
        (setMatAt specRegistry (takeDirtyChunks (allocateWorld specRegistry 20 18)).2 17 3 "SAND")).1 =
      [(17 / chunkSize, 3 / chunkSize)] :=
  C8_dirty_tracking_correct specRegistry 20 18 17 3 "SAND" (by decide) (by decide) (by decide) (by decide)

/-- C10: whenever the movement pass moves a cell (granular fall or slide,
liquid down/side flow, gas rise — i.e. the per-cell step `continue`d), the
step modified only `materialIndex` (and the dirty flags): the temperature
and flags (`worldMeta`) arrays are exactly those of the pre-step state, so
the moved material's temperature stays at its old grid location. -/
theorem C10_moves_leave_temp_and_meta (reg : Registry) (tt : Bool) (st : SimState) (x y : ℕ)
    (h : (cellStepCore reg tt st x y).2 = true) :
    (cellStepCore reg tt st x y).1.w.temp = st.w.temp ∧
    (cellStepCore reg tt st x y).1.w.meta = st.w.meta := by
  revert h
  simp only [cellStepCore]
  repeat' split
  all_goals intro h
  all_goals first
    | (simp only [prodSnd] at h; exact absurd h (by decide))
    | (exact ⟨moveStages_temp _ _ _ _ _ _, moveStages_meta _ _ _ _ _ _⟩)

/-- Witness for C10 at a concrete input: on the sand-over-water 1×2 grid
the cell (0,0) moves down, and temperature and meta arrays are untouched
by that step. -/
theorem C10_moves_leave_temp_and_meta_witness :
    (cellStepCore specRegistry false ⟨c3World, 0, 0⟩ 0 0).2 = true ∧
    (cellStepCore specRegistry false ⟨c3World, 0, 0⟩ 0 0).1.w.temp = c3World.temp ∧
    (cellStepCore specRegistry false ⟨c3World, 0, 0⟩ 0 0).1.w.meta = c3World.meta :=
  ⟨by with_unfolding_all decide,
   C10_moves_leave_temp_and_meta specRegistry false ⟨c3World, 0, 0⟩ 0 0
     (by with_unfolding_all decide)⟩

end SandSaga
